import Mathlib

/-!
Cloud synchronisation tasks of the host server.

A shallow embedding of `src/scene_server/host_server/logics/cloud_synctask.go`:
the trigger calculator `NextTrigger`, the reconciliation run `ExecSync` with the
operations it calls (`AddCloudHosts`, `UpdateCloudHosts`, `NewAddConfirm`,
`CloudSyncHistory`), and theorems about them.

Conventions of the embedding.

* Go strings that are sliced, formatted or parsed are lists of characters (one
  character per byte; the texts handled here are ASCII).
* Go `int` and `int64` are `Int`; the values met here stay far inside 64 bits.
* A Go map is a reference: the cloud host maps live in a heap (a list of maps)
  and the slices `newCloudHost` and `cloudHostAttr` hold positions in that heap.
  The maps returned by `ObtainCloudHosts` are built one per region (line 745), so
  distinct positions are distinct maps.
* A run-time panic (index or slice out of range) is an explicit outcome.
* Calls that leave the module (inventory service, cloud client) are answered by
  an environment record; write requests are appended to a trace.
-/

namespace CloudSync

/-! ## Go standard library: decimal text, `strconv.Atoi`, package `time` -/

/-- Decimal digit of a number below ten. -/
def digitChar (n : Nat) : Char := Char.ofNat (48 + n % 10)

/-- Decimal digits of `n`, most significant first; `fuel` bounds the number of digits. -/
def natDigits : Nat → Nat → List Char
  | 0, _ => []
  | fuel + 1, n => if n < 10 then [digitChar n] else natDigits fuel (n / 10) ++ [digitChar n]

/-- Go `fmt.Sprintf("%d", n)`. -/
def fmtD (n : Int) : List Char :=
  if n < 0 then '-' :: natDigits 40 n.natAbs else natDigits 40 n.natAbs

/-- Zero padding on the left up to width `w`. -/
def padLeft (w : Nat) (ds : List Char) : List Char := List.replicate (w - ds.length) '0' ++ ds

/-- Go `appendInt(b, n, w)` of package `time`: decimal text of `n`, zero padded to width `w`. -/
def appendInt (n : Int) (w : Nat) : List Char :=
  if n < 0 then '-' :: padLeft w (natDigits 40 n.natAbs) else padLeft w (natDigits 40 n.natAbs)

/-- Go `isDigit(s, 0)`: the text starts with a decimal digit. -/
def isDigitChar (c : Char) : Bool := decide ('0' ≤ c) && decide (c ≤ '9')

/-- Value of a decimal digit character. -/
def digitVal (c : Char) : Int := (c.toNat : Int) - 48

/-- Value of a text made of decimal digits only; `none` when another character occurs. -/
def digitsVal : List Char → Int → Option Int
  | [], acc => some acc
  | c :: cs, acc => if isDigitChar c then digitsVal cs (acc * 10 + digitVal c) else none

/-- Largest `int64`. -/
def maxInt64 : Int := 9223372036854775807

/-- Go `strconv.Atoi`: value and whether the conversion succeeded. A syntax error
gives `0`, a range error gives the nearest bound. -/
def Atoi (s : List Char) : Int × Bool :=
  let body : List Char := match s with
    | '-' :: r => r
    | '+' :: r => r
    | _ => s
  let neg : Bool := match s with
    | '-' :: _ => true
    | _ => false
  if body.isEmpty then (0, false) else
  match digitsVal body 0 with
  | none => (0, false)
  | some v =>
    let n : Int := if neg then -v else v
    if n > maxInt64 then (maxInt64, false)
    else if n < -maxInt64 - 1 then (-maxInt64 - 1, false)
    else (n, true)

/-- Go `isLeap` of package `time`. -/
def isLeap (year : Int) : Bool := year % 4 == 0 && (year % 100 != 0 || year % 400 == 0)

/-- Go `daysIn` of package `time`: number of days of a month. -/
def daysIn (month year : Int) : Int :=
  if month == 2 then (if isLeap year then 29 else 28)
  else if month == 4 || month == 6 || month == 9 || month == 11 then 30
  else 31

/-- Days from 1970-01-01 to the given date of the proleptic Gregorian calendar. -/
def daysFromCivil (year month day : Int) : Int :=
  let y : Int := if month ≤ 2 then year - 1 else year
  let era : Int := y / 400
  let yoe : Int := y - era * 400
  let mp : Int := if month > 2 then month - 3 else month + 9
  let doy : Int := (153 * mp + 2) / 5 + day - 1
  let doe : Int := yoe * 365 + yoe / 4 - yoe / 100 + doy
  era * 146097 + doe - 719468

/-- Date (year, month, day) that lies `z` days after 1970-01-01. -/
def civilFromDays (z : Int) : Int × Int × Int :=
  let z1 : Int := z + 719468
  let era : Int := z1 / 146097
  let doe : Int := z1 - era * 146097
  let yoe : Int := (doe - doe / 1460 + doe / 36524 - doe / 146096) / 365
  let doy : Int := doe - (365 * yoe + yoe / 4 - yoe / 100)
  let mp : Int := (5 * doy + 2) / 153
  let d : Int := doy - (153 * mp + 2) / 5 + 1
  let m : Int := if mp < 10 then mp + 3 else mp - 9
  (if m ≤ 2 then yoe + era * 400 + 1 else yoe + era * 400, m, d)

/-- The wall clock read by `time.Now()`: the Unix time and the offset of the zone
`Local` east of UTC, both in seconds. The offset is fixed (no daylight saving
transition), and one call of `NextTrigger` reads one instant. -/
structure Clock where
  now : Int
  zone : Int
deriving DecidableEq, Repr

/-- Seconds since 1970-01-01 00:00:00 of the local wall clock. -/
def Clock.wall (clk : Clock) : Int := clk.now + clk.zone

/-- Go `time.Now().Year()`. -/
def Clock.Year (clk : Clock) : Int := (civilFromDays (clk.wall / 86400)).1

/-- Go `time.Now().Month()`. -/
def Clock.Month (clk : Clock) : Int := (civilFromDays (clk.wall / 86400)).2.1

/-- Go `time.Now().Day()`. -/
def Clock.Day (clk : Clock) : Int := (civilFromDays (clk.wall / 86400)).2.2

/-- Go `time.Now().Hour()`. -/
def Clock.Hour (clk : Clock) : Int := clk.wall % 86400 / 3600

/-- Go `time.Now().Minute()`. -/
def Clock.Minute (clk : Clock) : Int := clk.wall % 3600 / 60

/-- Go `time.Now().Second()`. -/
def Clock.Second (clk : Clock) : Int := clk.wall % 60

/-- Go `time.Unix(now, 0).Format("2006-01-02 15:04:05")` in the zone `Local`. -/
def Format (clk : Clock) : List Char :=
  appendInt clk.Year 4 ++ '-' :: appendInt clk.Month 2 ++ '-' :: appendInt clk.Day 2
    ++ ' ' :: appendInt clk.Hour 2 ++ ':' :: appendInt clk.Minute 2
    ++ ':' :: appendInt clk.Second 2

/-- Go `getnum` of package `time`: one or two leading digits; with `fixed` exactly two. -/
def getnum (s : List Char) (fixed : Bool) : Option (Int × List Char) :=
  match s with
  | [] => none
  | c0 :: r0 =>
    if !isDigitChar c0 then none else
    match r0 with
    | [] => if fixed then none else some (digitVal c0, r0)
    | c1 :: r1 =>
      if !isDigitChar c1 then (if fixed then none else some (digitVal c0, r0))
      else some (digitVal c0 * 10 + digitVal c1, r1)

/-- Go `skip(value, pre)` of package `time` for a one character literal of the layout:
a blank of the layout matches any run of blanks, another character matches itself. -/
def skipLit (value : List Char) (c : Char) : Option (List Char) :=
  if c = ' ' then
    match value with
    | [] => some []
    | v :: _ => if v ≠ ' ' then none else some (value.dropWhile (fun x => x == ' '))
  else
    match value with
    | [] => none
    | v :: r => if v ≠ c then none else some r

/-- The fraction of a second that Go accepts after the seconds field although the
layout has none: a period and the digits after it are consumed. -/
def skipFraction (value : List Char) : List Char :=
  match value with
  | '.' :: c :: r => if isDigitChar c then (c :: r).dropWhile isDigitChar else value
  | _ => value

/-- The Unix time of the zero `time.Time`, which `time.ParseInLocation` returns with an error. -/
def zeroTimeUnix : Int := -62135596800

/-- Go `time.ParseInLocation("2006-01-02 15:04:05", value, Local)`: the Unix time of
the parsed instant, `none` on a parse error. The year takes four characters, month,
day, minute and second take exactly two digits, the hour takes one or two. -/
def ParseInLocation (zone : Int) (value : List Char) : Option Int :=
  match value with
  | y0 :: y1 :: y2 :: y3 :: v1 =>
    if !isDigitChar y0 then none else
    match digitsVal [y0, y1, y2, y3] 0 with
    | none => none
    | some year =>
    match skipLit v1 '-' with
    | none => none
    | some v2 =>
    match getnum v2 true with
    | none => none
    | some (month, v3) =>
    if month ≤ 0 || 12 < month then none else
    match skipLit v3 '-' with
    | none => none
    | some v4 =>
    match getnum v4 true with
    | none => none
    | some (day, v5) =>
    match skipLit v5 ' ' with
    | none => none
    | some v6 =>
    match getnum v6 false with
    | none => none
    | some (hour, v7) =>
    if hour < 0 || 24 ≤ hour then none else
    match skipLit v7 ':' with
    | none => none
    | some v8 =>
    match getnum v8 true with
    | none => none
    | some (min, v9) =>
    if min < 0 || 60 ≤ min then none else
    match skipLit v9 ':' with
    | none => none
    | some v10 =>
    match getnum v10 true with
    | none => none
    | some (sec, v11) =>
    if sec < 0 || 60 ≤ sec then none else
    if !(skipFraction v11).isEmpty then none else
    if day < 1 || day > daysIn month year then none else
    some (daysFromCivil year month day * 86400 + hour * 3600 + min * 60 + sec - zone)
  | _ => none

/-- The value of `theTime.Unix()` after `theTime, _ := time.ParseInLocation(...)`:
the error is dropped and the zero time stands in for it. -/
def parsedUnix (zone : Int) (value : List Char) : Int :=
  match ParseInLocation zone value with
  | some t => t
  | none => zeroTimeUnix

/-! ## The trigger calculator -/

/-- The `day` branch of `NextTrigger` (lines 559-579); `none` is the panic of a
slice expression out of range. -/
def nextTriggerDay (clk : Clock) (period : List Char) : Option Int :=
  let nowStr := Format clk
  if period.length < 3 then none else
  let intHour := (Atoi (period.take 2)).1
  let intMinute := (Atoi (period.drop 3)).1
  let toBeCharge0 := period
  let toBeCharge1 :=
    if intHour > clk.Hour then nowStr.take 11 ++ toBeCharge0 ++ ":00".data else toBeCharge0
  let toBeCharge2 :=
    if intHour < clk.Hour then
      nowStr.take 8 ++ fmtD (clk.Day + 1) ++ " ".data ++ toBeCharge1 ++ ":00".data
    else toBeCharge1
  let toBeCharge3 :=
    if intHour = clk.Hour ∧ intMinute > clk.Minute then
      nowStr.take 11 ++ toBeCharge2 ++ ":00".data
    else toBeCharge2
  let toBeCharge4 :=
    if intHour = clk.Hour ∧ intMinute ≤ clk.Minute then
      nowStr.take 8 ++ fmtD (clk.Day + 1) ++ " ".data ++ toBeCharge3 ++ ":00".data
    else toBeCharge3
  let sr := parsedUnix clk.zone toBeCharge4
  some (sr - clk.now)

/-- The `hour` branch of `NextTrigger` (lines 581-605): the early return of 0 on a
conversion error, otherwise the new value of `unixSubtract`. -/
def nextTriggerHour (clk : Clock) (period : List Char) : Except Int Int :=
  let nowStr := Format clk
  let toBeCharge0 := period
  let conv := Atoi toBeCharge0
  if !conv.2 then Except.error 0 else
  let intToBeCharge := conv.1
  let toBeCharge1 :=
    if intToBeCharge ≥ 10 ∧ intToBeCharge > clk.Minute then
      nowStr.take 11 ++ fmtD clk.Hour ++ ":".data ++ toBeCharge0 ++ ":".data ++ "00".data
    else toBeCharge0
  let toBeCharge2 :=
    if intToBeCharge ≥ 10 ∧ intToBeCharge < clk.Minute then
      nowStr.take 11 ++ fmtD (clk.Hour + 1) ++ ":".data ++ toBeCharge1 ++ ":".data ++ "00".data
    else toBeCharge1
  let toBeCharge3 :=
    if intToBeCharge < 10 ∧ intToBeCharge > clk.Minute then
      nowStr.take 11 ++ fmtD clk.Hour ++ ":0".data ++ toBeCharge2 ++ ":".data ++ "00".data
    else toBeCharge2
  let toBeCharge4 :=
    if intToBeCharge < 10 ∧ intToBeCharge < clk.Minute then
      nowStr.take 11 ++ fmtD (clk.Hour + 1) ++ ":0".data ++ toBeCharge3 ++ ":".data ++ "00".data
    else toBeCharge3
  let sr := parsedUnix clk.zone toBeCharge4
  Except.ok (sr - clk.now)

/-- Go `NextTrigger` (lines 551-613): minutes until the next firing; `none` is a
run-time panic. The three tests on `periodType` run one after the other, and the
final division is the truncating division of Go. -/
def NextTrigger (clk : Clock) (periodType : String) (period : String) : Option Int :=
  let unixSubtract0 : Int := 0
  match (if periodType = "day" then nextTriggerDay clk period.data else some unixSubtract0) with
  | none => none
  | some unixSubtract1 =>
  match (if periodType = "hour" then nextTriggerHour clk period.data
         else Except.ok unixSubtract1) with
  | Except.error r => some r
  | Except.ok unixSubtract2 =>
  let unixSubtract3 : Int := if periodType = "minute" then 300 else unixSubtract2
  some (Int.tdiv unixSubtract3 60)

/-! ## Data model of the reconciliation run -/

/-- Go `error` values, carried as their message. -/
abbrev Err := String

/-- The dynamic values stored under a key of a host map (Go `interface{}`). -/
inductive Val
  | nil
  | str (s : String)
  | int (n : Int)
  | bool (b : Bool)
  | time (unix : Int)
deriving DecidableEq, Repr

/-- Go `mapstr.MapStr` (`map[string]interface{}`) as an association list with unique keys. -/
abbrev MapStr := List (String × Val)

/-- Go `m[k]`: the value under `k`, the nil interface when the key is absent. -/
def index (m : MapStr) (k : String) : Val :=
  match m.lookup k with
  | some v => v
  | none => Val.nil

/-- Go `m[k] = v`. -/
def assign (m : MapStr) (k : String) (v : Val) : MapStr :=
  if (m.lookup k).isSome then m.map (fun p => if p.1 = k then (k, v) else p) else m ++ [(k, v)]

/-- Go `delete(m, k)`. -/
def delete (m : MapStr) (k : String) : MapStr := m.filter (fun p => p.1 != k)

/-- A map built by assigning the pairs one after the other. -/
def mapOf (ps : List (String × Val)) : MapStr := ps.foldl (fun m p => assign m p.1 p.2) []

/-- Go type assertion `v.(string)`: the string and `true`, or the empty string and `false`. -/
def assertString : Val → String × Bool
  | Val.str s => (s, true)
  | _ => ("", false)

/-- What a row of the host search holds under a key: a plain value or a nested map. -/
inductive Iface
  | val (v : Val)
  | map (m : MapStr)
deriving DecidableEq, Repr

/-- Modelled from the spec: the constant `common.BKHostInnerIPField` is not under
src/; the spec names the attribute key `bk_host_innerip`, which is also the
literal key written by `ObtainCloudHosts` (line 782). -/
def BKHostInnerIPField : String := "bk_host_innerip"

/-- Modelled from the spec: the constant `common.BKHostOuterIPField` is not under
src/; the key is the one written by `ObtainCloudHosts` (line 783). -/
def BKHostOuterIPField : String := "bk_host_outerip"

/-- Modelled from the spec: the constant `common.BKOSNameField` is not under src/;
the spec names the attribute key `bk_os_name` (line 784 writes it). -/
def BKOSNameField : String := "bk_os_name"

/-- Modelled from the spec: the constant `common.BKHostIDField` is not under src/;
it is the key of the host identifier assigned by the inventory service, distinct
from the three keys above. -/
def BKHostIDField : String := "bk_host_id"

/-- Modelled from the spec: `util.InStrArr` is not under src/; it is the membership
test of the spec (a host is new when its inner IP is not in the existing set). -/
def InStrArr (arr : List String) (s : String) : Bool := decide (s ∈ arr)

/-- The answer of `lgc.SearchHost`: `host.Count` and the rows `host.Info`. -/
structure SearchHost where
  Count : Int
  Info : List (List (String × Iface))
deriving DecidableEq, Repr

/-- Go `host.Info[i]["host"]` for a row `host.Info[i]`. -/
def rowHost (row : List (String × Iface)) : Iface :=
  match row.lookup "host" with
  | some x => x
  | none => Iface.val Val.nil

/-- The answer of `SearchConfirm`: the pending confirmations. -/
structure SearchConfirm where
  Count : Int
  Info : List MapStr
deriving DecidableEq, Repr

/-- The fields of `meta.CloudTaskInfo` read in this file. -/
structure CloudTaskInfo where
  TaskID : Int
  TaskName : String
  ObjID : String
  AccountType : String
  AccountAdmin : String
  PeriodType : String
  Period : String
  SecretID : String
  SecretKey : String
  ResourceConfirm : Bool
  AttrConfirm : Bool
deriving DecidableEq, Repr

/-- Go `meta.CloudHistory`, the outcome of one run. -/
structure CloudHistory where
  ObjID : String
  TaskID : Int
  Status : String
  NewAdd : Int
  AttrChanged : Int
  TimeConsume : String
  StartTime : String
deriving DecidableEq, Repr

/-- What the run does to the outside: the calls of `AddCloudHosts` and
`UpdateCloudHosts` with their argument, and the write requests sent to the
inventory service. -/
inductive Event
  | AddCloudHosts (newCloudHost : List MapStr)
  | AddHost (appID moduleID : Int) (ownerID : String) (hostInfoMap : List (Nat × MapStr))
  | UpdateCloudHosts (cloudHostAttr : List MapStr)
  | UpdateObject (hostID : Int) (data : MapStr)
  | ResourceConfirm (resourceConfirm : MapStr)
  | UpdateCloudTask (updateData : MapStr)
  | AddSyncHistory (cloudHistory : CloudHistory)
deriving DecidableEq, Repr

/-- The conversions of package `mapstr`, which is outside this file: they are
parameters of the model. -/
structure Lib where
  NewFromInterface : Iface → Except Err MapStr
  MapStr_String : MapStr → String → Except Err String
  MapStr_Int64 : MapStr → String → Except Err Int

/-- The collaborators of one run: the conversions, the answers of the read calls,
the answers of the write requests (which may depend on the requests sent so far),
and the clock readings. -/
structure Env where
  lib : Lib
  ownerID : String
  SearchHost : Except Err SearchHost
  ObtainCloudHosts : String → String → Except Err (List MapStr)
  GetDefaultAppIDWithSupplier : Except Err Int
  GetResoulePoolModuleID : Int → Except Err Int
  SearchConfirm : Except Err SearchConfirm
  AddHost : List Event → Int → Int → String → List (Nat × MapStr) → Option Err
  UpdateObject : List Event → Int → MapStr → Option Err × Bool
  ResourceConfirm : List Event → MapStr → Option Err
  UpdateCloudTask : List Event → MapStr → Option Err
  AddSyncHistory : List Event → CloudHistory → Option Err
  startTime : Int
  finishTime : Int
  updateTime : Int
  zone : Int

/-- How a loop of `ExecSync` is left: it ran to its end or was left by `break`; the
function returned the error (after storing it in `errOrigin`); or an index ran out
of range, with the value `errOrigin` had then. -/
inductive Loop (α : Type)
  | done (a : α)
  | ret (e : Err)
  | panic (errOrigin : Option Err)

/-- What `ExecSync` returns: `nil`, an error, or a panic that propagates. -/
inductive Ret
  | nil
  | err (e : Err)
  | panic
deriving DecidableEq, Repr

/-! ## Reconciliation: reading and classifying (lines 186-321) -/

/-- The loop of lines 195-211 over the indices `i < host.Count`: the inner IP of
every existing host is appended to `existHostList`. -/
def existLoop (lib : Lib) (host : SearchHost) : List Nat → List String → Loop (List String)
  | [], existHostList => Loop.done existHostList
  | i :: is, existHostList =>
    match host.Info[i]? with
    | none => Loop.panic none
    | some row =>
      match lib.NewFromInterface (rowHost row) with
      | Except.error e => Loop.ret e
      | Except.ok hostInfo =>
        match lib.MapStr_String hostInfo BKHostInnerIPField with
        | Except.error e => Loop.ret e
        | Except.ok ip => existLoop lib host is (existHostList ++ [ip])

/-- The loop of lines 249-258 over the cloud hosts; `j` is the position of the
host reached. A failed type assertion is only logged and leaves the empty string. -/
def newLoop (existHostList : List String) :
    Nat → List MapStr → List String × List Nat → List String × List Nat
  | _, [], acc => acc
  | j, hostInfo :: rest, acc =>
    let newHostInnerip := (assertString (index hostInfo BKHostInnerIPField)).1
    if !InStrArr existHostList newHostInnerip then
      newLoop existHostList (j + 1) rest (acc.1 ++ [newHostInnerip], acc.2 ++ [j])
    else newLoop existHostList (j + 1) rest acc

/-- State of the loop of lines 279-320 for one cloud host: `errOrigin`, the content
of the map of that cloud host, and `cloudHostAttr`. -/
structure Chg where
  errOrigin : Option Err
  hostInfo : MapStr
  cloudHostAttr : List Nat

/-- The loop of lines 279-320 over the indices `i < host.Count` for the cloud host
at position `j`. A failed conversion of a field of the existing host stores the
error and leaves the loop by `break`. -/
def innerLoop (lib : Lib) (host : SearchHost) (j : Nat)
    (newHostInnerip newHostOuterip newHostOsname : String) : List Nat → Chg → Loop Chg
  | [], c => Loop.done c
  | i :: is, c =>
    match host.Info[i]? with
    | none => Loop.panic c.errOrigin
    | some row =>
      match lib.NewFromInterface (rowHost row) with
      | Except.error e => Loop.ret e
      | Except.ok existHostInfo =>
        match lib.MapStr_String existHostInfo BKHostInnerIPField with
        | Except.error e => Loop.done { c with errOrigin := some e }
        | Except.ok existHostIp =>
        match lib.MapStr_String existHostInfo BKOSNameField with
        | Except.error e => Loop.done { c with errOrigin := some e }
        | Except.ok existHostOsname =>
        match lib.MapStr_String existHostInfo BKHostOuterIPField with
        | Except.error e => Loop.done { c with errOrigin := some e }
        | Except.ok existHostOuterip =>
        match lib.MapStr_String existHostInfo BKHostIDField with
        | Except.error e => Loop.done { c with errOrigin := some e }
        | Except.ok existHostID =>
          if existHostIp = newHostInnerip ∧
              (existHostOsname ≠ newHostOsname ∨ existHostOuterip ≠ newHostOuterip) then
            innerLoop lib host j newHostInnerip newHostOuterip newHostOsname is
              { c with hostInfo := assign c.hostInfo BKHostIDField (Val.str existHostID),
                       cloudHostAttr := c.cloudHostAttr ++ [j] }
          else innerLoop lib host j newHostInnerip newHostOuterip newHostOsname is c

/-- State of the loop of lines 262-321: `errOrigin`, the maps of the cloud hosts
already passed (in their final content), and `cloudHostAttr`. -/
structure Attr where
  errOrigin : Option Err
  heap : List MapStr
  cloudHostAttr : List Nat

/-- The loop of lines 262-321 over the cloud hosts; `j` is the position of the host
reached. A cloud host with a field that is not a string is skipped (`continue`). -/
def attrLoop (lib : Lib) (host : SearchHost) : Nat → List MapStr → Attr → Loop Attr
  | _, [], a => Loop.done a
  | j, hostInfo :: rest, a =>
    let ip := assertString (index hostInfo BKHostInnerIPField)
    let outer := assertString (index hostInfo BKHostOuterIPField)
    let os := assertString (index hostInfo BKOSNameField)
    if !ip.2 || !outer.2 || !os.2 then
      attrLoop lib host (j + 1) rest { a with heap := a.heap ++ [hostInfo] }
    else
      match innerLoop lib host j ip.1 outer.1 os.1 (List.range host.Count.toNat)
          { errOrigin := a.errOrigin, hostInfo := hostInfo, cloudHostAttr := a.cloudHostAttr } with
      | Loop.panic eo => Loop.panic eo
      | Loop.ret e => Loop.ret e
      | Loop.done c =>
        attrLoop lib host (j + 1) rest
          { errOrigin := c.errOrigin, heap := a.heap ++ [c.hostInfo],
            cloudHostAttr := c.cloudHostAttr }

/-- What lines 194-321 hand to the policy branch: the new inner IPs, the positions
of the new and of the changed cloud hosts, the cloud host maps, and `errOrigin`. -/
structure Picked where
  existHostList : List String
  newAddHost : List String
  newCloudHost : List Nat
  cloudHostAttr : List Nat
  heap : List MapStr
  errOrigin : Option Err

/-- Lines 246-321 of `ExecSync`: the two passes over the cloud hosts. -/
def classify (lib : Lib) (host : SearchHost) (existHostList : List String)
    (cloudHostInfo : List MapStr) : Loop Picked :=
  let new := newLoop existHostList 0 cloudHostInfo ([], [])
  match attrLoop lib host 0 cloudHostInfo { errOrigin := none, heap := [], cloudHostAttr := [] } with
  | Loop.panic eo => Loop.panic eo
  | Loop.ret e => Loop.ret e
  | Loop.done a =>
    Loop.done { existHostList := existHostList, newAddHost := new.1, newCloudHost := new.2,
                cloudHostAttr := a.cloudHostAttr, heap := a.heap, errOrigin := a.errOrigin }

/-- Lines 186-321 of `ExecSync`: search the existing hosts, collect their inner
IPs, obtain the cloud hosts, classify them. -/
def readAndClassify (env : Env) (taskInfo : CloudTaskInfo) : Loop Picked :=
  match env.SearchHost with
  | Except.error e => Loop.ret e
  | Except.ok host =>
    match existLoop env.lib host (List.range host.Count.toNat) [] with
    | Loop.panic eo => Loop.panic eo
    | Loop.ret e => Loop.ret e
    | Loop.done existHostList =>
      match env.ObtainCloudHosts taskInfo.SecretID taskInfo.SecretKey with
      | Except.error e => Loop.ret e
      | Except.ok cloudHostInfo => classify env.lib host existHostList cloudHostInfo

/-- The maps that a slice of positions points to. -/
def deref (heap : List MapStr) (ptrs : List Nat) : List MapStr :=
  ptrs.map (fun j => heap.getD j [])

/-! ## The write operations -/

/-- The entry of `hostInfoMap` built at lines 437-441 for one new cloud host. -/
def addHostEntry (hostInfo : MapStr) : MapStr :=
  mapOf [(BKHostInnerIPField, index hostInfo BKHostInnerIPField),
         (BKHostOuterIPField, index hostInfo BKHostOuterIPField),
         (BKOSNameField, index hostInfo BKOSNameField),
         ("import_from", Val.str "3"),
         ("bk_cloud_id", Val.int 1)]

/-- Go `AddCloudHosts` (lines 408-451). `hostList` is fresh, so its application id
is 0 and the default application is looked up; the module lookup is answered from
the application id. Returns the error (if any) and the extended trace. -/
def AddCloudHosts (env : Env) (newCloudHost : List MapStr) (tr : List Event) :
    Option Err × List Event :=
  let tr0 := tr ++ [Event.AddCloudHosts newCloudHost]
  match env.GetDefaultAppIDWithSupplier with
  | Except.error e => (some e, tr0)
  | Except.ok appID =>
    match env.GetResoulePoolModuleID appID with
    | Except.error e => (some e, tr0)
    | Except.ok moduleID =>
      let hostInfoMap := newCloudHost.enum.map (fun p => (p.1, addHostEntry p.2))
      (env.AddHost tr0 appID moduleID env.ownerID hostInfoMap,
       tr0 ++ [Event.AddHost appID moduleID env.ownerID hostInfoMap])

/-- The loop of `UpdateCloudHosts` (lines 454-472) over the positions in
`cloudHostAttr`. The three `delete` calls change the map in the heap. The loop
returns `err` when the request failed or its answer says `Result = false`, and in
the second case `err` is nil. -/
def updateLoop (env : Env) : List Nat → List MapStr → List Event →
    Option Err × List MapStr × List Event
  | [], heap, tr => (none, heap, tr)
  | p :: ps, heap, tr =>
    match env.lib.MapStr_Int64 (heap.getD p []) BKHostIDField with
    | Except.error e => (some e, heap, tr)
    | Except.ok hostID =>
      let hostInfo := delete (delete (delete (heap.getD p []) BKHostIDField) "bk_confirm")
        "bk_attr_confirm"
      let heap1 := heap.set p hostInfo
      let result := env.UpdateObject tr hostID hostInfo
      let tr1 := tr ++ [Event.UpdateObject hostID hostInfo]
      if result.1.isSome || !result.2 then (result.1, heap1, tr1)
      else updateLoop env ps heap1 tr1

/-- Go `UpdateCloudHosts` (lines 453-474) on the maps that `cloudHostAttr` points to. -/
def UpdateCloudHosts (env : Env) (cloudHostAttr : List Nat) (heap : List MapStr)
    (tr : List Event) : Option Err × List MapStr × List Event :=
  updateLoop env cloudHostAttr heap (tr ++ [Event.UpdateCloudHosts (deref heap cloudHostAttr)])

/-- The loop of lines 487-493 of `NewAddConfirm`: the inner IPs of the pending
confirmations, up to the first one that is not a string (`break`). -/
def confirmIpLoop : List MapStr → List String → List String
  | [], confirmIpList => confirmIpList
  | confirmInfo :: rest, confirmIpList =>
    let ip := assertString (index confirmInfo BKHostInnerIPField)
    if !ip.2 then confirmIpList else confirmIpLoop rest (confirmIpList ++ [ip.1])

/-- The loop of lines 497-506 of `NewAddConfirm`: the inner IPs of the new hosts
that are not in the confirmation queue. -/
def newHostIpLoop (lib : Lib) (confirmIpList : List String) :
    List MapStr → List String → Except Err (List String)
  | [], newHostIp => Except.ok newHostIp
  | host :: rest, newHostIp =>
    match lib.MapStr_String host BKHostInnerIPField with
    | Except.error e => Except.error e
    | Except.ok innerIp =>
      if !InStrArr confirmIpList innerIp then
        newHostIpLoop lib confirmIpList rest (newHostIp ++ [innerIp])
      else newHostIpLoop lib confirmIpList rest newHostIp

/-- The request built at lines 526-538 of `NewAddConfirm`. -/
def newAddRequest (taskInfo : CloudTaskInfo) (innerIp outerIp osName : String) : MapStr :=
  mapOf [("bk_obj_id", Val.str taskInfo.ObjID),
         (BKHostInnerIPField, Val.str innerIp),
         ("bk_source_type", Val.str "云同步"),
         ("bk_task_id", Val.int taskInfo.TaskID),
         (BKOSNameField, Val.str osName),
         (BKHostOuterIPField, Val.str outerIp),
         ("bk_confirm", Val.bool true),
         ("bk_attr_confirm", Val.bool false),
         ("bk_task_name", Val.str taskInfo.TaskName),
         ("bk_account_type", Val.str taskInfo.AccountType),
         ("bk_account_admin", Val.str taskInfo.AccountAdmin),
         ("bk_resource_type", Val.str "new_add")]

/-- The loop of lines 510-545 of `NewAddConfirm`: it runs over `newCloudHost` and
submits one request for each host. -/
def submitLoop (env : Env) (taskInfo : CloudTaskInfo) : List MapStr → List Event →
    Option Err × List Event
  | [], tr => (none, tr)
  | host :: rest, tr =>
    match env.lib.MapStr_String host BKHostInnerIPField with
    | Except.error e => (some e, tr)
    | Except.ok innerIp =>
    match env.lib.MapStr_String host BKHostOuterIPField with
    | Except.error e => (some e, tr)
    | Except.ok outerIp =>
    match env.lib.MapStr_String host BKOSNameField with
    | Except.error e => (some e, tr)
    | Except.ok osName =>
      let resourceConfirm := newAddRequest taskInfo innerIp outerIp osName
      match env.ResourceConfirm tr resourceConfirm with
      | some e => (some e, tr ++ [Event.ResourceConfirm resourceConfirm])
      | none => submitLoop env taskInfo rest (tr ++ [Event.ResourceConfirm resourceConfirm])

/-- Go `NewAddConfirm` (lines 476-549): the number returned, the error, the trace. -/
def NewAddConfirm (env : Env) (taskInfo : CloudTaskInfo) (newCloudHost : List MapStr)
    (tr : List Event) : Int × Option Err × List Event :=
  match env.SearchConfirm with
  | Except.error e => (0, some e, tr)
  | Except.ok confirmHosts =>
    let confirmIpList :=
      if confirmHosts.Count > 0 then confirmIpLoop confirmHosts.Info [] else []
    match newHostIpLoop env.lib confirmIpList newCloudHost [] with
    | Except.error e => (0, some e, tr)
    | Except.ok newHostIp =>
      if newHostIp.length > 0 then
        match submitLoop env taskInfo newCloudHost tr with
        | (some e, tr1) => (0, some e, tr1)
        | (none, tr1) => (newHostIp.length, none, tr1)
      else (newHostIp.length, none, tr)

/-- The request built at lines 361-392 of `ExecSync` for a changed host. -/
def changeRequest (taskInfo : CloudTaskInfo) (innerIp outerIp osName : String) : MapStr :=
  mapOf [("bk_obj_id", Val.str taskInfo.ObjID),
         (BKHostInnerIPField, Val.str innerIp),
         (BKHostOuterIPField, Val.str outerIp),
         (BKOSNameField, Val.str osName),
         ("bk_source_type", Val.str "cloud_sync"),
         ("bk_task_id", Val.int taskInfo.TaskID),
         ("bk_attr_confirm", Val.bool taskInfo.AttrConfirm),
         ("bk_confirm", Val.bool false),
         ("bk_task_name", Val.str taskInfo.TaskName),
         ("bk_account_type", Val.str taskInfo.AccountType),
         ("bk_account_admin", Val.str taskInfo.AccountAdmin),
         ("bk_resource_type", Val.str "change")]

/-- The loop of lines 360-399 of `ExecSync` over the changed hosts. -/
def attrConfirmLoop (env : Env) (taskInfo : CloudTaskInfo) : List MapStr → List Event →
    Option Err × List Event
  | [], tr => (none, tr)
  | host :: rest, tr =>
    match env.lib.MapStr_String host BKHostInnerIPField with
    | Except.error e => (some e, tr)
    | Except.ok innerIp =>
    match env.lib.MapStr_String host BKHostOuterIPField with
    | Except.error e => (some e, tr)
    | Except.ok outerIp =>
    match env.lib.MapStr_String host BKOSNameField with
    | Except.error e => (some e, tr)
    | Except.ok osName =>
      let resourceConfirm := changeRequest taskInfo innerIp outerIp osName
      match env.ResourceConfirm tr resourceConfirm with
      | some e => (some e, tr ++ [Event.ResourceConfirm resourceConfirm])
      | none => attrConfirmLoop env taskInfo rest (tr ++ [Event.ResourceConfirm resourceConfirm])

/-- Lines 676-688 of `CloudSyncHistory`: the elapsed time and the start time are
written into the history record. -/
def stampHistory (env : Env) (startTime : Int) (cloudHistory : CloudHistory) : CloudHistory :=
  let timeConsumed := env.finishTime - startTime
  { cloudHistory with
    TimeConsume :=
      if timeConsumed > 60 then
        String.mk (fmtD (Int.tdiv timeConsumed 60) ++ "min".data
          ++ fmtD (Int.tmod timeConsumed 60) ++ "s".data)
      else String.mk (fmtD timeConsumed ++ "s".data),
    StartTime := String.mk (Format { now := startTime, zone := env.zone }) }

/-- Lines 692-698 of `CloudSyncHistory`: the summary written to the task. -/
def updateData (env : Env) (taskID : Int) (cloudHistory : CloudHistory) : MapStr :=
  mapOf [("bk_last_sync_time", Val.time env.updateTime),
         ("bk_task_id", Val.int taskID),
         ("bk_sync_status", Val.str cloudHistory.Status),
         ("new_add", Val.int cloudHistory.NewAdd),
         ("attr_changed", Val.int cloudHistory.AttrChanged)]

/-- Go `CloudSyncHistory` (lines 675-711): the error returned, the history record
as sent, and the trace. When the update of the task fails the function returns
before the history entry is appended. -/
def CloudSyncHistory (env : Env) (taskID : Int) (startTime : Int) (cloudHistory : CloudHistory)
    (tr : List Event) : Option Err × CloudHistory × List Event :=
  let h := stampHistory env startTime cloudHistory
  match env.UpdateCloudTask tr (updateData env taskID h) with
  | some e => (some e, h, tr ++ [Event.UpdateCloudTask (updateData env taskID h)])
  | none =>
    (env.AddSyncHistory (tr ++ [Event.UpdateCloudTask (updateData env taskID h)]) h, h,
     tr ++ [Event.UpdateCloudTask (updateData env taskID h)] ++ [Event.AddSyncHistory h])

/-! ## The reconciliation run -/

/-- State in which the body of `ExecSync` is left, before the deferred calls. -/
structure Body where
  ret : Ret
  errOrigin : Option Err
  cloudHistory : CloudHistory
  trace : List Event

/-- The statement pair `errOrigin = err; return err`. -/
def failWith (e : Err) (cloudHistory : CloudHistory) (tr : List Event) : Body :=
  { ret := Ret.err e, errOrigin := some e, cloudHistory := cloudHistory, trace := tr }

/-- Lines 329-346 of `ExecSync`: with both confirm flags off, create the new hosts
and update the changed hosts. -/
def directApply (env : Env) (p : Picked) : Option Err × List MapStr × List Event :=
  match (if p.newCloudHost.length > 0 then AddCloudHosts env (deref p.heap p.newCloudHost) []
         else (none, [])) with
  | (some e, tr) => (some e, p.heap, tr)
  | (none, tr) =>
    if p.cloudHostAttr.length > 0 then UpdateCloudHosts env p.cloudHostAttr p.heap tr
    else (none, p.heap, tr)

/-- Lines 358-405 of `ExecSync`: the confirmation of changed hosts, which returns
nil at line 400 when it has run, and otherwise the final `Status = "success"`. -/
def finishPolicy (env : Env) (taskInfo : CloudTaskInfo) (p : Picked) (heap : List MapStr)
    (cloudHistory : CloudHistory) (tr : List Event) : Body :=
  if taskInfo.AttrConfirm ∧ p.cloudHostAttr.length > 0 then
    match attrConfirmLoop env taskInfo (deref heap p.cloudHostAttr) tr with
    | (some e, tr1) => failWith e cloudHistory tr1
    | (none, tr1) =>
      { ret := Ret.nil, errOrigin := p.errOrigin, cloudHistory := cloudHistory, trace := tr1 }
  else
    { ret := Ret.nil, errOrigin := p.errOrigin,
      cloudHistory := { cloudHistory with Status := "success" }, trace := tr }

/-- Lines 348-405 of `ExecSync`: the confirmation of new hosts, then `finishPolicy`. -/
def confirmPolicy (env : Env) (taskInfo : CloudTaskInfo) (p : Picked) (heap : List MapStr)
    (cloudHistory : CloudHistory) (tr : List Event) : Body :=
  if taskInfo.ResourceConfirm then
    match NewAddConfirm env taskInfo (deref heap p.newCloudHost) tr with
    | (newAddNum, some e, tr1) => failWith e { cloudHistory with NewAdd := newAddNum } tr1
    | (newAddNum, none, tr1) =>
      finishPolicy env taskInfo p heap { cloudHistory with NewAdd := newAddNum } tr1
  else finishPolicy env taskInfo p heap cloudHistory tr

/-- Lines 323-405 of `ExecSync`: the counts and the policy branch. -/
def applyPolicy (env : Env) (taskInfo : CloudTaskInfo) (p : Picked)
    (cloudHistory : CloudHistory) : Body :=
  let h1 : CloudHistory :=
    { cloudHistory with NewAdd := p.newAddHost.length, AttrChanged := p.cloudHostAttr.length }
  if !taskInfo.ResourceConfirm && !taskInfo.AttrConfirm then
    match directApply env p with
    | (some e, _, tr) => failWith e h1 tr
    | (none, heap, tr) => confirmPolicy env taskInfo p heap h1 tr
  else confirmPolicy env taskInfo p p.heap h1 []

/-- The body of `ExecSync` (lines 185-405). -/
def execBody (env : Env) (taskInfo : CloudTaskInfo) (cloudHistory : CloudHistory) : Body :=
  match readAndClassify env taskInfo with
  | Loop.panic eo =>
    { ret := Ret.panic, errOrigin := eo, cloudHistory := cloudHistory, trace := [] }
  | Loop.ret e => failWith e cloudHistory []
  | Loop.done p => applyPolicy env taskInfo p cloudHistory

/-- The deferred function of lines 179-183. -/
def markFail (errOrigin : Option Err) (cloudHistory : CloudHistory) : CloudHistory :=
  if errOrigin.isSome then { cloudHistory with Status := "fail" } else cloudHistory

/-- What one run of `ExecSync` leaves behind: the value returned, the history
outcome after the deferred calls, and the trace of the writes. -/
structure Outcome where
  ret : Ret
  cloudHistory : CloudHistory
  trace : List Event

/-- Lines 171-173 of `ExecSync`: the fresh history record of the run. -/
def newHistory (taskInfo : CloudTaskInfo) : CloudHistory :=
  { ObjID := taskInfo.ObjID, TaskID := taskInfo.TaskID, Status := "", NewAdd := 0,
    AttrChanged := 0, TimeConsume := "", StartTime := "" }

/-- Go `ExecSync` (lines 170-406): the body, then the deferred functions in reverse
order (first the status marker, then `CloudSyncHistory`), which also run when the
body panics. -/
def ExecSync (env : Env) (taskInfo : CloudTaskInfo) : Outcome :=
  let b := execBody env taskInfo (newHistory taskInfo)
  let r := CloudSyncHistory env taskInfo.TaskID env.startTime (markFail b.errOrigin b.cloudHistory)
    b.trace
  { ret := b.ret, cloudHistory := r.2.1, trace := r.2.2 }

end CloudSync
namespace CloudSync

/-- The text that a cloud host descriptor holds under a key, when it is a string. -/
def cloudField (hostInfo : MapStr) (k : String) : Option String :=
  match index hostInfo k with
  | Val.str s => some s
  | _ => none

/-- The text of a field of an existing host row, when the row converts to a map
and the field converts to a string. -/
def existField (lib : Lib) (row : List (String × Iface)) (k : String) : Option String :=
  match lib.NewFromInterface (rowHost row) with
  | Except.error _ => none
  | Except.ok m =>
    match lib.MapStr_String m k with
    | Except.error _ => none
    | Except.ok s => some s

/-- All host fields read by the classification are well-typed strings, and
`host.Count` is the number of rows. -/
def WellTyped (lib : Lib) (host : SearchHost) (cloudHostInfo : List MapStr) : Prop :=
  host.Count = host.Info.length ∧
  (∀ row ∈ host.Info, ∀ k ∈ [BKHostInnerIPField, BKOSNameField, BKHostOuterIPField, BKHostIDField],
    (existField lib row k).isSome = true) ∧
  (∀ c ∈ cloudHostInfo, ∀ k ∈ [BKHostInnerIPField, BKHostOuterIPField, BKOSNameField],
    (cloudField c k).isSome = true)

/-! ## A concrete environment: the example of the specification -/

/-- Conversions for the examples: a row converts when it is a map, a field
converts to a string when it holds a string, and to an integer when it holds an
integer or a decimal text. -/
def sampleLib : Lib where
  NewFromInterface := fun x =>
    match x with
    | Iface.map m => Except.ok m
    | Iface.val _ => Except.error "not a map"
  MapStr_String := fun m k =>
    match index m k with
    | Val.str s => Except.ok s
    | _ => Except.error "not a string"
  MapStr_Int64 := fun m k =>
    match index m k with
    | Val.int n => Except.ok n
    | Val.str s => if (Atoi s.data).2 then Except.ok (Atoi s.data).1 else Except.error "not a number"
    | _ => Except.error "not a number"

/-- A row of the host search for an existing host. -/
def hostRow (id ip os outer : String) : List (String × Iface) :=
  [("host", Iface.map [(BKHostIDField, Val.str id), (BKHostInnerIPField, Val.str ip),
                       (BKOSNameField, Val.str os), (BKHostOuterIPField, Val.str outer)])]

/-- A cloud host descriptor as `ObtainCloudHosts` builds it (lines 780-785). -/
def cloudHost (ip os outer : String) : MapStr :=
  [("bk_cloud_region", Val.str "ap-guangzhou"), (BKHostInnerIPField, Val.str ip),
   (BKHostOuterIPField, Val.str outer), (BKOSNameField, Val.str os)]

/-- An environment in which every call succeeds, with the given existing hosts,
cloud hosts and pending confirmations. -/
def sampleEnv (hosts : List (List (String × Iface))) (cloud : List MapStr)
    (pending : List MapStr) : Env where
  lib := sampleLib
  ownerID := "0"
  SearchHost := Except.ok { Count := hosts.length, Info := hosts }
  ObtainCloudHosts := fun _ _ => Except.ok cloud
  GetDefaultAppIDWithSupplier := Except.ok 1
  GetResoulePoolModuleID := fun _ => Except.ok 2
  SearchConfirm := Except.ok { Count := pending.length, Info := pending }
  AddHost := fun _ _ _ _ _ => none
  UpdateObject := fun _ _ _ => (none, true)
  ResourceConfirm := fun _ _ => none
  UpdateCloudTask := fun _ _ => none
  AddSyncHistory := fun _ _ => none
  startTime := 1705314600
  finishTime := 1705314602
  updateTime := 1705314602
  zone := 0

/-- A task with the given confirm flags (`ResourceConfirm`, `AttrConfirm`). -/
def sampleTask (rc ac : Bool) : CloudTaskInfo :=
  { TaskID := 7, TaskName := "t", ObjID := "host", AccountType := "tencent_cloud",
    AccountAdmin := "admin", PeriodType := "minute", Period := "5", SecretID := "id",
    SecretKey := "key", ResourceConfirm := rc, AttrConfirm := ac }

/-- The existing inventory of the end-to-end example of the specification. -/
def specHosts : List (List (String × Iface)) := [hostRow "11" "10.0.0.1" "A" "1.1.1.1"]

/-- The cloud inventory of the end-to-end example of the specification. -/
def specCloud : List MapStr :=
  [cloudHost "10.0.0.1" "B" "1.1.1.1", cloudHost "10.0.0.2" "A" "2.2.2.2"]

/-- The environment of the example of the specification in which the lookup of
the default application fails, so that `AddCloudHosts` returns an error. -/
def createFailsEnv : Env :=
  { sampleEnv specHosts specCloud [] with
    GetDefaultAppIDWithSupplier := Except.error "no default application" }

/-- An existing inventory that shares no inner IP with the cloud inventory of the
example, so that both cloud hosts are new. -/
def otherHosts : List (List (String × Iface)) := [hostRow "19" "10.0.0.9" "A" "9.9.9.9"]

/-- A confirmation queue that already holds the new-host request for 10.0.0.1. -/
def pendingHosts : List MapStr := [newAddRequest (sampleTask true false) "10.0.0.1" "1.1.1.1" "B"]

/-- An environment in which the host search fails and every later call succeeds. -/
def searchFailsEnv : Env :=
  { sampleEnv specHosts specCloud [] with SearchHost := Except.error "inventory down" }

/-- An environment in which the host search and the update of the task both fail. -/
def recorderFailsEnv : Env :=
  { sampleEnv specHosts specCloud [] with
    SearchHost := Except.error "inventory down"
    UpdateCloudTask := fun _ _ => some "inventory down" }

/-- The existing host of the example with an OS name that is a number, which the
conversion of `sampleLib` rejects. -/
def badOsHosts : List (List (String × Iface)) :=
  [[("host", Iface.map [(BKHostIDField, Val.str "11"), (BKHostInnerIPField, Val.str "10.0.0.1"),
                        (BKOSNameField, Val.int 7), (BKHostOuterIPField, Val.str "1.1.1.1")])]]

/-- A cloud inventory whose first descriptor has an outer IP that is not a string. -/
def badOuterCloud : List MapStr :=
  [[("bk_cloud_region", Val.str "ap-guangzhou"), (BKHostInnerIPField, Val.str "10.0.0.1"),
    (BKHostOuterIPField, Val.int 0), (BKOSNameField, Val.str "B")],
   cloudHost "10.0.0.2" "A" "2.2.2.2"]

/-- The answer of the inventory service to the update of the task that
`CloudSyncHistory` sends at the end of the run (line 700). -/
def summaryAnswer (env : Env) (taskInfo : CloudTaskInfo) : Option Err :=
  env.UpdateCloudTask (execBody env taskInfo (newHistory taskInfo)).trace
    (updateData env taskInfo.TaskID
      (stampHistory env env.startTime
        (markFail (execBody env taskInfo (newHistory taskInfo)).errOrigin
          (execBody env taskInfo (newHistory taskInfo)).cloudHistory)))

/-! ## Kinds of events -/

/-- The event is a confirmation request (`ResourceConfirm`). -/
def Event.isConfirm : Event → Bool
  | Event.ResourceConfirm _ => true
  | _ => false

/-- The event is a history entry appended to the inventory service (`AddSyncHistory`). -/
def Event.isHistory : Event → Bool
  | Event.AddSyncHistory _ => true
  | _ => false

/-- The event belongs to the direct creation or update of hosts. -/
def Event.isHostWrite : Event → Bool
  | Event.AddCloudHosts _ => true
  | Event.AddHost _ _ _ _ => true
  | Event.UpdateCloudHosts _ => true
  | Event.UpdateObject _ _ => true
  | _ => false

/-- The confirmation requests submitted in a trace, in order. -/
def confirmRequests (tr : List Event) : List MapStr :=
  tr.filterMap (fun e => match e with
    | Event.ResourceConfirm r => some r
    | _ => none)

/-- The history entries appended to the inventory service in a trace, in order. -/
def historyEntries (tr : List Event) : List CloudHistory :=
  tr.filterMap (fun e => match e with
    | Event.AddSyncHistory h => some h
    | _ => none)

/-- The events of a trace that create or update hosts directly, in order. -/
def hostWrites (tr : List Event) : List Event := tr.filter Event.isHostWrite

/-! ## The scheduler of one task (lines 149-168) -/

/-- The fields of `meta.TaskInfo` set in this file. The channel `ManagerChn` is
represented by the signals below. -/
structure TaskInfo where
  Method : String
  NextTrigger : Int
  Args : CloudTaskInfo

/-- The task record built at lines 93-97 and 636-640 from the computed interval. -/
def newTaskInfoItem (nextTrigger : Int) (taskInfo : CloudTaskInfo) : TaskInfo :=
  { Method := taskInfo.PeriodType, NextTrigger := nextTrigger, Args := taskInfo }

/-- The value of an `int64` expression: the result modulo 2^64 in the signed range. -/
def wrapInt64 (n : Int) : Int := (n + 9223372036854775808) % 18446744073709551616 - 9223372036854775808

/-- Go `time.Duration(n) * time.Minute`, in nanoseconds. -/
def minuteDuration (n : Int) : Int := wrapInt64 (wrapInt64 n * 60000000000)

/-- Which case of the `select` of lines 152-166 is taken in one round of the loop:
the ticker fires and the run it starts is answered by `env`, or a value arrives
on `ManagerChn`. -/
inductive Signal
  | fire (env : Env)
  | stop

/-- The `switch` of lines 155-162: the interval for the next round. A method that
is none of the three leaves the interval as it is. -/
def rearm (t : TaskInfo) : TaskInfo :=
  if t.Method = "day" then { t with NextTrigger := 1440 }
  else if t.Method = "hour" then { t with NextTrigger := 60 }
  else if t.Method = "minute" then { t with NextTrigger := 5 }
  else t

/-- How `CloudSyncSwitch` stands when the signals are used up: it returned after
a stop signal, it waits on its ticker, or it panicked (`time.NewTicker` with an
interval that is not positive, or a panic of the run). -/
inductive SwitchEnd
  | returned
  | waiting
  | panic
deriving DecidableEq, Repr

/-- What `CloudSyncSwitch` did: the values of `NextTrigger` (minutes) with which a
ticker was armed, in order, the runs of `ExecSync`, and how it stands. -/
structure SwitchRun where
  armed : List Int
  runs : List Outcome
  final : SwitchEnd

/-- Go `CloudSyncSwitch` (lines 149-168) under a sequence of signals: each round
arms a new ticker with the current `NextTrigger`; on a firing it runs `ExecSync`
and sets the next interval from the method. -/
def CloudSyncSwitch : List Signal → TaskInfo → SwitchRun
  | [], t =>
    if minuteDuration t.NextTrigger ≤ 0 then { armed := [], runs := [], final := SwitchEnd.panic }
    else { armed := [t.NextTrigger], runs := [], final := SwitchEnd.waiting }
  | Signal.stop :: _, t =>
    if minuteDuration t.NextTrigger ≤ 0 then { armed := [], runs := [], final := SwitchEnd.panic }
    else { armed := [t.NextTrigger], runs := [], final := SwitchEnd.returned }
  | Signal.fire env :: rest, t =>
    if minuteDuration t.NextTrigger ≤ 0 then { armed := [], runs := [], final := SwitchEnd.panic }
    else if (ExecSync env t.Args).ret = Ret.panic then
      { armed := [t.NextTrigger], runs := [ExecSync env t.Args], final := SwitchEnd.panic }
    else
      { armed := t.NextTrigger :: (CloudSyncSwitch rest (rearm t)).armed,
        runs := ExecSync env t.Args :: (CloudSyncSwitch rest (rearm t)).runs,
        final := (CloudSyncSwitch rest (rearm t)).final }

/-- The fixed step of a period type (lines 156-161). -/
def stepOf (method : String) : Option Int :=
  if method = "day" then some 1440
  else if method = "hour" then some 60
  else if method = "minute" then some 5
  else none

/-! ## The eviction pass (lines 120-147) -/

/-- Go `meta.CloudSyncRedisStop`: a stop item of the shared queue. -/
structure CloudSyncRedisStop where
  TaskID : Int
  OwnerID : String
deriving DecidableEq, Repr

/-- One value popped from the pending-stop set: the text returned by `SPop` (empty
on an error), and what happens if the stop value is sent on `ManagerChn`: `none`
when nobody receives it (the send blocks), otherwise the signals that the call of
`CloudSyncSwitch` at line 142 then meets. -/
structure Pop where
  stop : String
  sched : Option (List Signal)

/-- State of the eviction pass: the registry `taskInfoMap`, the task identifiers
whose `ManagerChn` received a stop value, and the number of `SDiffStore` calls. -/
structure Evict where
  taskInfoMap : List (Int × TaskInfo)
  stopSignals : List Int
  sdiffStores : Nat

/-- How the body of the loop of `SyncTaskRedisManager` is left for one item: the
loop goes on, the function returned (line 138), the pass is blocked in a send or
in the scheduler it called, or it panicked. -/
inductive Control
  | next
  | returned
  | blocked
  | panic
deriving DecidableEq, Repr

/-- Lines 134-145 of `SyncTaskRedisManager` for one decoded stop item. -/
def evictItem (ownerID : String) (item : CloudSyncRedisStop) (sched : Option (List Signal))
    (s : Evict) : Evict × Control :=
  if ownerID = item.OwnerID then
    match s.taskInfoMap.lookup item.TaskID with
    | none => (s, Control.returned)
    | some taskInfoItem =>
      match sched with
      | none => (s, Control.blocked)
      | some sigs =>
        let s1 : Evict :=
          { s with stopSignals := s.stopSignals ++ [item.TaskID],
                   taskInfoMap := s.taskInfoMap.filter (fun e => e.1 != item.TaskID) }
        match (CloudSyncSwitch sigs taskInfoItem).final with
        | SwitchEnd.returned => ({ s1 with sdiffStores := s1.sdiffStores + 1 }, Control.next)
        | SwitchEnd.waiting => (s1, Control.blocked)
        | SwitchEnd.panic => (s1, Control.panic)
  else ({ s with sdiffStores := s.sdiffStores + 1 }, Control.next)

/-- Go `SyncTaskRedisManager` (lines 120-147) over the values popped one after the
other; `decode` is `json.Unmarshal` into a stop item, and a value that does not
decode is logged and skipped (`continue`). When the values are used up the loop
is still running. -/
def SyncTaskRedisManager (decode : String → Option CloudSyncRedisStop) (ownerID : String) :
    List Pop → Evict → Evict × Control
  | [], s => (s, Control.next)
  | p :: ps, s =>
    match decode p.stop with
    | none => SyncTaskRedisManager decode ownerID ps s
    | some item =>
      match evictItem ownerID item p.sched s with
      | (s1, Control.next) => SyncTaskRedisManager decode ownerID ps s1
      | (s1, c) => (s1, c)

/-- A decoder for the examples: the text is the owner, the task identifier is 7. -/
def sampleDecode (stop : String) : Option CloudSyncRedisStop :=
  if stop = "" then none else some { TaskID := 7, OwnerID := stop }

/-- A registry that holds the task 8 only. -/
def sampleRegistry : List (Int × TaskInfo) :=
  [(8, newTaskInfoItem 15 (sampleTask false false))]

/-- An environment of the example of the specification in which the run takes
exactly 60 seconds. -/
def sixtySecondsEnv : Env :=
  { sampleEnv specHosts specCloud [] with finishTime := 1705314660 }

/-- The request is a confirmation request of the given resource type. -/
def hasResourceType (req : MapStr) (ty : String) : Prop :=
  index req "bk_resource_type" = Val.str ty

/-! ## Lemmas on the classification loops -/

theorem existField_some (lib : Lib) (row : List (String × Iface))
    (h : ∀ k ∈ [BKHostInnerIPField, BKOSNameField, BKHostOuterIPField, BKHostIDField],
      (existField lib row k).isSome = true) :
    ∃ m ip os outer id, lib.NewFromInterface (rowHost row) = Except.ok m ∧
      lib.MapStr_String m BKHostInnerIPField = Except.ok ip ∧
      lib.MapStr_String m BKOSNameField = Except.ok os ∧
      lib.MapStr_String m BKHostOuterIPField = Except.ok outer ∧
      lib.MapStr_String m BKHostIDField = Except.ok id ∧
      existField lib row BKHostInnerIPField = some ip ∧
      existField lib row BKOSNameField = some os ∧
      existField lib row BKHostOuterIPField = some outer := by
  have h1 := h BKHostInnerIPField (by simp)
  have h2 := h BKOSNameField (by simp)
  have h3 := h BKHostOuterIPField (by simp)
  have h4 := h BKHostIDField (by simp)
  unfold existField at h1 h2 h3 h4 ⊢
  cases hm : lib.NewFromInterface (rowHost row) with
  | error e => simp [hm] at h1
  | ok m =>
    simp only [hm] at h1 h2 h3 h4 ⊢
    cases h1s : lib.MapStr_String m BKHostInnerIPField with
    | error e => simp [h1s] at h1
    | ok ip =>
    cases h2s : lib.MapStr_String m BKOSNameField with
    | error e => simp [h2s] at h2
    | ok os =>
    cases h3s : lib.MapStr_String m BKHostOuterIPField with
    | error e => simp [h3s] at h3
    | ok outer =>
    cases h4s : lib.MapStr_String m BKHostIDField with
    | error e => simp [h4s] at h4
    | ok id => exact ⟨m, ip, os, outer, id, rfl, h1s, h2s, h3s, h4s, rfl, rfl, rfl⟩

theorem cloudField_some (c : MapStr) (k : String) (h : (cloudField c k).isSome = true) :
    ∃ s, cloudField c k = some s ∧ assertString (index c k) = (s, true) := by
  unfold cloudField at h ⊢
  cases hv : index c k <;> simp [hv] at h ⊢
  simp [assertString]


theorem existLoop_done (lib : Lib) (host : SearchHost)
    (hrows : ∀ row ∈ host.Info,
      ∀ k ∈ [BKHostInnerIPField, BKOSNameField, BKHostOuterIPField, BKHostIDField],
        (existField lib row k).isSome = true) :
    ∀ (is : List Nat) (acc : List String), (∀ i ∈ is, i < host.Info.length) →
      ∃ l, existLoop lib host is acc = Loop.done l ∧
        ∀ s, s ∈ l ↔ s ∈ acc ∨ ∃ i ∈ is, ∃ row, host.Info[i]? = some row ∧
          existField lib row BKHostInnerIPField = some s := by
  intro is
  induction is with
  | nil => intro acc _; exact ⟨acc, rfl, by simp⟩
  | cons i is ih =>
    intro acc hlt
    have hi : i < host.Info.length := hlt i (by simp)
    have hrow : host.Info[i]? = some host.Info[i] := List.getElem?_eq_getElem hi
    obtain ⟨m, ip, os, outer, id, hm, h1, -, -, -, hf, -, -⟩ :=
      existField_some lib host.Info[i] (hrows _ (List.getElem_mem hi))
    obtain ⟨l, hl, hmem⟩ := ih (acc ++ [ip]) (fun k hk => hlt k (by simp [hk]))
    refine ⟨l, ?_, ?_⟩
    · simp only [existLoop, hrow, hm, h1]; exact hl
    · intro s
      rw [hmem s]
      constructor
      · rintro (h | ⟨k, hk, row, hr, hs⟩)
        · rcases List.mem_append.mp h with h | h
          · exact Or.inl h
          · refine Or.inr ⟨i, by simp, host.Info[i], hrow, ?_⟩
            simp at h; rw [hf, h]
        · exact Or.inr ⟨k, by simp [hk], row, hr, hs⟩
      · rintro (h | ⟨k, hk, row, hr, hs⟩)
        · exact Or.inl (List.mem_append.mpr (Or.inl h))
        · rcases List.mem_cons.mp hk with rfl | hk
          · left
            rw [hrow] at hr
            cases hr
            rw [hf] at hs
            cases hs
            simp
          · exact Or.inr ⟨k, hk, row, hr, hs⟩


theorem newLoop_mem (existHostList : List String) :
    ∀ (rest : List MapStr) (j : Nat) (acc : List String × List Nat) (x : Nat),
      x ∈ (newLoop existHostList j rest acc).2 ↔
        x ∈ acc.2 ∨ ∃ k c, rest[k]? = some c ∧ x = j + k ∧
          (assertString (index c BKHostInnerIPField)).1 ∉ existHostList := by
  intro rest
  induction rest with
  | nil => intro j acc x; simp [newLoop]
  | cons c rest ih =>
    intro j acc x
    unfold newLoop
    by_cases hin : (assertString (index c BKHostInnerIPField)).1 ∈ existHostList
    · simp only [InStrArr, hin, decide_True, Bool.not_true, Bool.false_eq_true, if_false]
      rw [ih]
      constructor
      · rintro (h | ⟨k, d, hk, hx, hd⟩)
        · exact Or.inl h
        · exact Or.inr ⟨k + 1, d, by simpa using hk, by omega, hd⟩
      · rintro (h | ⟨k, d, hk, hx, hd⟩)
        · exact Or.inl h
        · cases k with
          | zero => simp at hk; subst hk; exact absurd hin hd
          | succ k => exact Or.inr ⟨k, d, by simpa using hk, by omega, hd⟩
    · simp only [InStrArr, hin, decide_False, Bool.not_false, if_true]
      rw [ih]
      constructor
      · rintro (h | ⟨k, d, hk, hx, hd⟩)
        · rcases List.mem_append.mp h with h | h
          · exact Or.inl h
          · simp at h
            exact Or.inr ⟨0, c, by simp, by omega, hin⟩
        · exact Or.inr ⟨k + 1, d, by simpa using hk, by omega, hd⟩
      · rintro (h | ⟨k, d, hk, hx, hd⟩)
        · exact Or.inl (List.mem_append.mpr (Or.inl h))
        · cases k with
          | zero =>
            left
            simp at hk hx
            simp [hx]
          | succ k => exact Or.inr ⟨k, d, by simpa using hk, by omega, hd⟩

theorem innerLoop_done (lib : Lib) (host : SearchHost) (j : Nat) (ip outer os : String)
    (hrows : ∀ row ∈ host.Info,
      ∀ k ∈ [BKHostInnerIPField, BKOSNameField, BKHostOuterIPField, BKHostIDField],
        (existField lib row k).isSome = true) :
    ∀ (is : List Nat) (c : Chg), (∀ i ∈ is, i < host.Info.length) →
      ∃ c1, innerLoop lib host j ip outer os is c = Loop.done c1 ∧
        c1.errOrigin = c.errOrigin ∧
        ∀ x, x ∈ c1.cloudHostAttr ↔ x ∈ c.cloudHostAttr ∨
          (x = j ∧ ∃ i ∈ is, ∃ row, host.Info[i]? = some row ∧
            existField lib row BKHostInnerIPField = some ip ∧
            (existField lib row BKOSNameField ≠ some os ∨
              existField lib row BKHostOuterIPField ≠ some outer)) := by
  intro is
  induction is with
  | nil => intro c _; exact ⟨c, rfl, rfl, by simp⟩
  | cons i is ih =>
    intro c hlt
    have hi : i < host.Info.length := hlt i (by simp)
    have hrow : host.Info[i]? = some host.Info[i] := List.getElem?_eq_getElem hi
    obtain ⟨m, eip, eos, eouter, eid, hm, h1, h2, h3, h4, hf1, hf2, hf3⟩ :=
      existField_some lib host.Info[i] (hrows _ (List.getElem_mem hi))
    have hlt1 : ∀ k ∈ is, k < host.Info.length := fun k hk => hlt k (by simp [hk])
    by_cases hcond : eip = ip ∧ (eos ≠ os ∨ eouter ≠ outer)
    · obtain ⟨c1, hc1, he, hmem⟩ := ih
        { c with hostInfo := assign c.hostInfo BKHostIDField (Val.str eid),
                 cloudHostAttr := c.cloudHostAttr ++ [j] } hlt1
      refine ⟨c1, ?_, he, ?_⟩
      · simp only [innerLoop, hrow, hm, h1, h2, h3, h4, hcond, if_true]
        simpa using hc1
      · intro x
        rw [hmem x]
        constructor
        · rintro (h | ⟨hx, k, hk, row, hr, hs⟩)
          · rcases List.mem_append.mp h with h | h
            · exact Or.inl h
            · simp at h
              refine Or.inr ⟨h, i, by simp, host.Info[i], hrow, ?_, ?_⟩
              · rw [hf1, hcond.1]
              · rw [hf2, hf3]
                simpa using hcond.2
          · exact Or.inr ⟨hx, k, by simp [hk], row, hr, hs⟩
        · rintro (h | ⟨hx, k, hk, row, hr, hs⟩)
          · exact Or.inl (List.mem_append.mpr (Or.inl h))
          · left
            simp [hx]
    · obtain ⟨c1, hc1, he, hmem⟩ := ih c hlt1
      refine ⟨c1, ?_, he, ?_⟩
      · simp only [innerLoop, hrow, hm, h1, h2, h3, h4, hcond, if_false]
        exact hc1
      · intro x
        rw [hmem x]
        constructor
        · rintro (h | ⟨hx, k, hk, row, hr, hs⟩)
          · exact Or.inl h
          · exact Or.inr ⟨hx, k, by simp [hk], row, hr, hs⟩
        · rintro (h | ⟨hx, k, hk, row, hr, hs, ht⟩)
          · exact Or.inl h
          · rcases List.mem_cons.mp hk with rfl | hk
            · exfalso
              rw [hrow] at hr
              cases hr
              rw [hf1] at hs
              rw [hf2, hf3] at ht
              apply hcond
              simp at hs ht
              exact ⟨hs, ht⟩
            · exact Or.inr ⟨hx, k, hk, row, hr, hs, ht⟩


theorem exists_range_row {α : Type} (l : List α) (P : α → Prop) :
    (∃ i ∈ List.range l.length, ∃ row, l[i]? = some row ∧ P row) ↔ ∃ row ∈ l, P row := by
  constructor
  · rintro ⟨i, -, row, hr, hp⟩
    exact ⟨row, List.getElem?_mem hr, hp⟩
  · rintro ⟨row, hr, hp⟩
    obtain ⟨i, hi, rfl⟩ := List.getElem_of_mem hr
    exact ⟨i, List.mem_range.mpr hi, l[i], List.getElem?_eq_getElem hi, hp⟩

theorem attrLoop_done (lib : Lib) (host : SearchHost)
    (hcount : host.Count = host.Info.length)
    (hrows : ∀ row ∈ host.Info,
      ∀ k ∈ [BKHostInnerIPField, BKOSNameField, BKHostOuterIPField, BKHostIDField],
        (existField lib row k).isSome = true) :
    ∀ (rest : List MapStr) (j : Nat) (a : Attr),
      (∀ c ∈ rest, ∀ k ∈ [BKHostInnerIPField, BKHostOuterIPField, BKOSNameField],
        (cloudField c k).isSome = true) →
      ∃ a1, attrLoop lib host j rest a = Loop.done a1 ∧ a1.errOrigin = a.errOrigin ∧
        ∀ x, x ∈ a1.cloudHostAttr ↔ x ∈ a.cloudHostAttr ∨
          ∃ k c, rest[k]? = some c ∧ x = j + k ∧ ∃ row ∈ host.Info,
            existField lib row BKHostInnerIPField = cloudField c BKHostInnerIPField ∧
            (existField lib row BKOSNameField ≠ cloudField c BKOSNameField ∨
              existField lib row BKHostOuterIPField ≠ cloudField c BKHostOuterIPField) := by
  intro rest
  induction rest with
  | nil => intro j a _; exact ⟨a, rfl, rfl, by simp⟩
  | cons c rest ih =>
    intro j a hc
    obtain ⟨ip, hip, aip⟩ := cloudField_some c BKHostInnerIPField (hc c (by simp) _ (by simp))
    obtain ⟨outer, hout, aout⟩ :=
      cloudField_some c BKHostOuterIPField (hc c (by simp) _ (by simp))
    obtain ⟨os, hos, aos⟩ := cloudField_some c BKOSNameField (hc c (by simp) _ (by simp))
    have hn : host.Count.toNat = host.Info.length := by rw [hcount]; simp
    obtain ⟨c1, hc1, he1, hmem1⟩ := innerLoop_done lib host j ip outer os hrows
      (List.range host.Info.length)
      { errOrigin := a.errOrigin, hostInfo := c, cloudHostAttr := a.cloudHostAttr }
      (fun i hi => List.mem_range.mp hi)
    obtain ⟨a1, ha1, he, hmem⟩ := ih (j + 1)
      { errOrigin := c1.errOrigin, heap := a.heap ++ [c1.hostInfo],
        cloudHostAttr := c1.cloudHostAttr } (fun d hd => hc d (by simp [hd]))
    refine ⟨a1, ?_, ?_, ?_⟩
    · simp only [attrLoop, aip, aout, aos, hn, hc1]
      simpa using ha1
    · rw [he]; exact he1
    · intro x
      rw [hmem x, hmem1 x, exists_range_row host.Info (fun row =>
        existField lib row BKHostInnerIPField = some ip ∧
          (existField lib row BKOSNameField ≠ some os ∨
            existField lib row BKHostOuterIPField ≠ some outer))]
      constructor
      · rintro ((h | ⟨hx, row, hr, hp⟩) | ⟨k, d, hk, hx, hd⟩)
        · exact Or.inl h
        · refine Or.inr ⟨0, c, by simp, by omega, row, hr, ?_⟩
          rw [hip, hos, hout]; exact hp
        · exact Or.inr ⟨k + 1, d, by simpa using hk, by omega, hd⟩
      · rintro (h | ⟨k, d, hk, hx, row, hr, hp⟩)
        · exact Or.inl (Or.inl h)
        · cases k with
          | zero =>
            simp at hk; subst hk
            rw [hip, hos, hout] at hp
            exact Or.inl (Or.inr ⟨by omega, row, hr, hp⟩)
          | succ k => exact Or.inr ⟨k, d, by simpa using hk, by omega, row, hr, hp⟩


/-! ## Classification of the cloud hosts -/

/-- Claim C1. In `ExecSync`, when the host search and the cloud listing succeed
and all host fields are well-typed strings, lines 186-321 run to their end, and
for the cloud host at each position `j`: it is in `newCloudHost` iff its inner IP
is the inner IP of no existing host; it is in `cloudHostAttr` iff some existing
host has its inner IP and a different OS name or outer IP; and it is not in both. -/
theorem ExecSync_classifies_new_and_changed (env : Env) (taskInfo : CloudTaskInfo)
    (host : SearchHost) (cloudHostInfo : List MapStr)
    (hs : env.SearchHost = Except.ok host)
    (hc : env.ObtainCloudHosts taskInfo.SecretID taskInfo.SecretKey = Except.ok cloudHostInfo)
    (hw : WellTyped env.lib host cloudHostInfo) :
    ∃ p, readAndClassify env taskInfo = Loop.done p ∧
      ∀ j c, cloudHostInfo[j]? = some c →
        (j ∈ p.newCloudHost ↔
          ∀ row ∈ host.Info,
            existField env.lib row BKHostInnerIPField ≠ cloudField c BKHostInnerIPField) ∧
        (j ∈ p.cloudHostAttr ↔
          ∃ row ∈ host.Info,
            existField env.lib row BKHostInnerIPField = cloudField c BKHostInnerIPField ∧
            (existField env.lib row BKOSNameField ≠ cloudField c BKOSNameField ∨
              existField env.lib row BKHostOuterIPField ≠ cloudField c BKHostOuterIPField)) ∧
        ¬ (j ∈ p.newCloudHost ∧ j ∈ p.cloudHostAttr) := by
  obtain ⟨hcount, hrows, hcloud⟩ := hw
  have hn : host.Count.toNat = host.Info.length := by rw [hcount]; simp
  obtain ⟨l, hl, hlmem⟩ := existLoop_done env.lib host hrows (List.range host.Info.length) []
    (fun i hi => List.mem_range.mp hi)
  obtain ⟨a1, ha1, he1, hamem⟩ := attrLoop_done env.lib host hcount hrows cloudHostInfo 0
    { errOrigin := none, heap := [], cloudHostAttr := [] } hcloud
  have hnew : ∀ j c, cloudHostInfo[j]? = some c →
      (j ∈ (newLoop l 0 cloudHostInfo ([], [])).2 ↔
        ∀ row ∈ host.Info,
          existField env.lib row BKHostInnerIPField ≠ cloudField c BKHostInnerIPField) := by
    intro j c hj
    obtain ⟨ip, hip, aip⟩ := cloudField_some c BKHostInnerIPField
      (hcloud c (List.getElem?_mem hj) _ (by simp))
    rw [newLoop_mem]
    constructor
    · rintro (h | ⟨k, d, hk, hx, hd⟩)
      · simp at h
      · have hkj : k = j := by omega
        subst hkj
        rw [hj] at hk
        cases hk
        intro row hr heq
        apply hd
        rw [aip, hlmem]
        right
        exact (exists_range_row host.Info
          (fun row => existField env.lib row BKHostInnerIPField = some ip)).mpr
          ⟨row, hr, by rw [heq, hip]⟩
    · intro h
      refine Or.inr ⟨j, c, hj, by omega, ?_⟩
      rw [aip, hlmem]
      rintro (h1 | h1)
      · simp at h1
      · obtain ⟨row, hr, hp⟩ := (exists_range_row host.Info
          (fun row => existField env.lib row BKHostInnerIPField = some ip)).mp h1
        exact h row hr (by rw [hp, hip])
  have hattr : ∀ j c, cloudHostInfo[j]? = some c →
      (j ∈ a1.cloudHostAttr ↔
        ∃ row ∈ host.Info,
          existField env.lib row BKHostInnerIPField = cloudField c BKHostInnerIPField ∧
          (existField env.lib row BKOSNameField ≠ cloudField c BKOSNameField ∨
            existField env.lib row BKHostOuterIPField ≠ cloudField c BKHostOuterIPField)) := by
    intro j c hj
    rw [hamem]
    constructor
    · rintro (h | ⟨k, d, hk, hx, hd⟩)
      · simp at h
      · have hkj : k = j := by omega
        subst hkj
        rw [hj] at hk
        cases hk
        exact hd
    · intro h
      exact Or.inr ⟨j, c, hj, by omega, h⟩
  refine ⟨{ existHostList := l, newAddHost := (newLoop l 0 cloudHostInfo ([], [])).1,
            newCloudHost := (newLoop l 0 cloudHostInfo ([], [])).2,
            cloudHostAttr := a1.cloudHostAttr, heap := a1.heap, errOrigin := a1.errOrigin },
          ?_, ?_⟩
  · simp only [readAndClassify, hs, hn, hl, hc, classify, ha1]
  · intro j c hj
    refine ⟨hnew j c hj, hattr j c hj, ?_⟩
    rintro ⟨h1, h2⟩
    obtain ⟨row, hr, heq, -⟩ := (hattr j c hj).mp h2
    exact (hnew j c hj).mp h1 row hr heq

/-- Claim C1 at the example of the specification: one existing host and two cloud hosts. -/
theorem ExecSync_classifies_new_and_changed_witness :
    ∃ p, readAndClassify (sampleEnv specHosts specCloud []) (sampleTask false false)
        = Loop.done p ∧
      ∀ j c, specCloud[j]? = some c →
        (j ∈ p.newCloudHost ↔
          ∀ row ∈ specHosts,
            existField sampleLib row BKHostInnerIPField ≠ cloudField c BKHostInnerIPField) ∧
        (j ∈ p.cloudHostAttr ↔
          ∃ row ∈ specHosts,
            existField sampleLib row BKHostInnerIPField = cloudField c BKHostInnerIPField ∧
            (existField sampleLib row BKOSNameField ≠ cloudField c BKOSNameField ∨
              existField sampleLib row BKHostOuterIPField ≠ cloudField c BKHostOuterIPField)) ∧
        ¬ (j ∈ p.newCloudHost ∧ j ∈ p.cloudHostAttr) :=
  ExecSync_classifies_new_and_changed (sampleEnv specHosts specCloud []) (sampleTask false false)
    { Count := 1, Info := specHosts } specCloud rfl rfl
    ⟨rfl, by decide, by decide⟩


/-! ## Traces of the write operations -/

theorem AddCloudHosts_trace_kind (env : Env) (hosts : List MapStr) (tr : List Event) :
    ∃ evs, (AddCloudHosts env hosts tr).2 = tr ++ Event.AddCloudHosts hosts :: evs ∧
      ∀ e ∈ evs, ∃ a m o x, e = Event.AddHost a m o x := by
  unfold AddCloudHosts
  cases h1 : env.GetDefaultAppIDWithSupplier with
  | error e => exact ⟨[], by simp, by simp⟩
  | ok appID =>
    cases h2 : env.GetResoulePoolModuleID appID with
    | error e => exact ⟨[], by simp [h2], by simp⟩
    | ok moduleID =>
      exact ⟨[Event.AddHost appID moduleID env.ownerID
        (hosts.enum.map (fun p => (p.1, addHostEntry p.2)))], by simp [h2], by simp⟩

theorem AddCloudHosts_trace (env : Env) (hosts : List MapStr) (tr : List Event) :
    ∃ evs, (AddCloudHosts env hosts tr).2 = tr ++ Event.AddCloudHosts hosts :: evs ∧
      ∀ e ∈ evs, e.isHostWrite = true := by
  obtain ⟨evs, h1, h2⟩ := AddCloudHosts_trace_kind env hosts tr
  refine ⟨evs, h1, ?_⟩
  intro e he
  obtain ⟨a, m, o, x, rfl⟩ := h2 e he
  rfl

theorem updateLoop_trace (env : Env) :
    ∀ (ps : List Nat) (heap : List MapStr) (tr : List Event),
      ∃ evs, (updateLoop env ps heap tr).2.2 = tr ++ evs ∧ ∀ e ∈ evs, e.isHostWrite = true := by
  intro ps
  induction ps with
  | nil => intro heap tr; exact ⟨[], by simp [updateLoop], by simp⟩
  | cons p ps ih =>
    intro heap tr
    unfold updateLoop
    cases env.lib.MapStr_Int64 (heap.getD p []) BKHostIDField with
    | error e => exact ⟨[], by simp, by simp⟩
    | ok hostID =>
      simp only
      split
      · exact ⟨[_], rfl, by simp [Event.isHostWrite]⟩
      · obtain ⟨evs, h1, h2⟩ := ih
          (heap.set p (delete (delete (delete (heap.getD p []) BKHostIDField) "bk_confirm")
            "bk_attr_confirm"))
          (tr ++ [Event.UpdateObject hostID
            (delete (delete (delete (heap.getD p []) BKHostIDField) "bk_confirm")
              "bk_attr_confirm")])
        refine ⟨Event.UpdateObject hostID
            (delete (delete (delete (heap.getD p []) BKHostIDField) "bk_confirm")
              "bk_attr_confirm") :: evs, ?_, ?_⟩
        · rw [h1]; simp
        · intro e he
          rcases List.mem_cons.mp he with rfl | he
          · simp [Event.isHostWrite]
          · exact h2 e he

theorem UpdateCloudHosts_trace (env : Env) (ps : List Nat) (heap : List MapStr)
    (tr : List Event) :
    ∃ evs, (UpdateCloudHosts env ps heap tr).2.2 =
        tr ++ Event.UpdateCloudHosts (deref heap ps) :: evs ∧
      ∀ e ∈ evs, e.isHostWrite = true := by
  unfold UpdateCloudHosts
  obtain ⟨evs, h1, h2⟩ := updateLoop_trace env ps heap
    (tr ++ [Event.UpdateCloudHosts (deref heap ps)])
  exact ⟨evs, by rw [h1]; simp, h2⟩

theorem submitLoop_trace (env : Env) (taskInfo : CloudTaskInfo) :
    ∀ (hosts : List MapStr) (tr : List Event),
      ∃ evs, (submitLoop env taskInfo hosts tr).2 = tr ++ evs ∧
        ∀ e ∈ evs, e.isConfirm = true := by
  intro hosts
  induction hosts with
  | nil => intro tr; exact ⟨[], by simp [submitLoop], by simp⟩
  | cons h rest ih =>
    intro tr
    unfold submitLoop
    cases env.lib.MapStr_String h BKHostInnerIPField with
    | error e => exact ⟨[], by simp, by simp⟩
    | ok innerIp =>
    cases env.lib.MapStr_String h BKHostOuterIPField with
    | error e => exact ⟨[], by simp, by simp⟩
    | ok outerIp =>
    cases env.lib.MapStr_String h BKOSNameField with
    | error e => exact ⟨[], by simp, by simp⟩
    | ok osName =>
      simp only
      cases env.ResourceConfirm tr (newAddRequest taskInfo innerIp outerIp osName) with
      | some e => exact ⟨[_], rfl, by simp [Event.isConfirm]⟩
      | none =>
        obtain ⟨evs, h1, h2⟩ := ih
          (tr ++ [Event.ResourceConfirm (newAddRequest taskInfo innerIp outerIp osName)])
        refine ⟨Event.ResourceConfirm (newAddRequest taskInfo innerIp outerIp osName) :: evs,
          ?_, ?_⟩
        · simp only; rw [h1]; simp
        · intro e he
          rcases List.mem_cons.mp he with rfl | he
          · simp [Event.isConfirm]
          · exact h2 e he

theorem attrConfirmLoop_trace (env : Env) (taskInfo : CloudTaskInfo) :
    ∀ (hosts : List MapStr) (tr : List Event),
      ∃ evs, (attrConfirmLoop env taskInfo hosts tr).2 = tr ++ evs ∧
        ∀ e ∈ evs, e.isConfirm = true := by
  intro hosts
  induction hosts with
  | nil => intro tr; exact ⟨[], by simp [attrConfirmLoop], by simp⟩
  | cons h rest ih =>
    intro tr
    unfold attrConfirmLoop
    cases env.lib.MapStr_String h BKHostInnerIPField with
    | error e => exact ⟨[], by simp, by simp⟩
    | ok innerIp =>
    cases env.lib.MapStr_String h BKHostOuterIPField with
    | error e => exact ⟨[], by simp, by simp⟩
    | ok outerIp =>
    cases env.lib.MapStr_String h BKOSNameField with
    | error e => exact ⟨[], by simp, by simp⟩
    | ok osName =>
      simp only
      cases env.ResourceConfirm tr (changeRequest taskInfo innerIp outerIp osName) with
      | some e => exact ⟨[_], rfl, by simp [Event.isConfirm]⟩
      | none =>
        obtain ⟨evs, h1, h2⟩ := ih
          (tr ++ [Event.ResourceConfirm (changeRequest taskInfo innerIp outerIp osName)])
        refine ⟨Event.ResourceConfirm (changeRequest taskInfo innerIp outerIp osName) :: evs,
          ?_, ?_⟩
        · simp only; rw [h1]; simp
        · intro e he
          rcases List.mem_cons.mp he with rfl | he
          · simp [Event.isConfirm]
          · exact h2 e he


theorem NewAddConfirm_trace (env : Env) (taskInfo : CloudTaskInfo) (hosts : List MapStr)
    (tr : List Event) :
    ∃ evs, (NewAddConfirm env taskInfo hosts tr).2.2 = tr ++ evs ∧
      ∀ e ∈ evs, e.isConfirm = true := by
  unfold NewAddConfirm
  cases env.SearchConfirm with
  | error e => exact ⟨[], by simp, by simp⟩
  | ok confirmHosts =>
    simp only
    cases newHostIpLoop env.lib
        (if confirmHosts.Count > 0 then confirmIpLoop confirmHosts.Info [] else []) hosts [] with
    | error e => exact ⟨[], by simp, by simp⟩
    | ok newHostIp =>
      simp only
      split
      · obtain ⟨evs, h1, h2⟩ := submitLoop_trace env taskInfo hosts tr
        rcases hsub : submitLoop env taskInfo hosts tr with ⟨_ | e, tr1⟩
        · rw [hsub] at h1; exact ⟨evs, h1, h2⟩
        · rw [hsub] at h1; exact ⟨evs, h1, h2⟩
      · exact ⟨[], by simp, by simp⟩

theorem directApply_trace (env : Env) (p : Picked) :
    ∀ e ∈ (directApply env p).2.2, e.isHostWrite = true := by
  unfold directApply
  obtain ⟨evs1, h1, h2⟩ := AddCloudHosts_trace env (deref p.heap p.newCloudHost) []
  by_cases hnew : p.newCloudHost.length > 0
  · simp only [hnew, if_true]
    rcases hadd : AddCloudHosts env (deref p.heap p.newCloudHost) [] with ⟨_ | e, tr⟩
    · rw [hadd] at h1
      simp only at h1 ⊢
      have htr : ∀ e ∈ tr, e.isHostWrite = true := by
        intro e he
        rw [h1] at he
        rcases List.mem_cons.mp (by simpa using he) with rfl | he
        · rfl
        · exact h2 e he
      split
      · obtain ⟨evs2, h3, h4⟩ := UpdateCloudHosts_trace env p.cloudHostAttr p.heap tr
        intro e he
        rw [h3] at he
        rcases List.mem_append.mp he with he | he
        · exact htr e he
        · rcases List.mem_cons.mp he with rfl | he
          · rfl
          · exact h4 e he
      · exact htr
    · rw [hadd] at h1
      simp only at h1 ⊢
      intro x hx
      rw [h1] at hx
      rcases List.mem_cons.mp (by simpa using hx) with rfl | hx
      · rfl
      · exact h2 x hx
  · simp only [hnew, if_false]
    split
    · obtain ⟨evs2, h3, h4⟩ := UpdateCloudHosts_trace env p.cloudHostAttr p.heap []
      intro e he
      rw [h3] at he
      rcases List.mem_cons.mp (by simpa using he) with rfl | he
      · rfl
      · exact h4 e he
    · simp

theorem finishPolicy_trace (env : Env) (taskInfo : CloudTaskInfo) (p : Picked)
    (heap : List MapStr) (h : CloudHistory) (tr : List Event) :
    ∃ evs, (finishPolicy env taskInfo p heap h tr).trace = tr ++ evs ∧
      ∀ e ∈ evs, e.isConfirm = true := by
  unfold finishPolicy
  split
  · obtain ⟨evs, h1, h2⟩ := attrConfirmLoop_trace env taskInfo (deref heap p.cloudHostAttr) tr
    rcases hl : attrConfirmLoop env taskInfo (deref heap p.cloudHostAttr) tr with ⟨_ | e, tr1⟩
    · rw [hl] at h1; exact ⟨evs, h1, h2⟩
    · rw [hl] at h1; exact ⟨evs, h1, h2⟩
  · exact ⟨[], by simp, by simp⟩

theorem confirmPolicy_trace (env : Env) (taskInfo : CloudTaskInfo) (p : Picked)
    (heap : List MapStr) (h : CloudHistory) (tr : List Event) :
    ∃ evs, (confirmPolicy env taskInfo p heap h tr).trace = tr ++ evs ∧
      ∀ e ∈ evs, e.isConfirm = true := by
  unfold confirmPolicy
  split
  · obtain ⟨evs, h1, h2⟩ := NewAddConfirm_trace env taskInfo (deref heap p.newCloudHost) tr
    rcases hl : NewAddConfirm env taskInfo (deref heap p.newCloudHost) tr with ⟨n, _ | e, tr1⟩
    · rw [hl] at h1
      simp only at h1 ⊢
      obtain ⟨evs2, h3, h4⟩ := finishPolicy_trace env taskInfo p heap { h with NewAdd := n } tr1
      refine ⟨evs ++ evs2, ?_, ?_⟩
      · rw [h3, h1]; simp
      · intro e he
        rcases List.mem_append.mp he with he | he
        · exact h2 e he
        · exact h4 e he
    · rw [hl] at h1; exact ⟨evs, h1, h2⟩
  · exact finishPolicy_trace env taskInfo p heap h tr


theorem confirmRequests_eq_nil (tr : List Event) (h : ∀ e ∈ tr, e.isConfirm = false) :
    confirmRequests tr = [] := by
  unfold confirmRequests
  rw [List.filterMap_eq_nil_iff]
  intro e he
  have := h e he
  cases e <;> simp_all [Event.isConfirm]

theorem historyEntries_eq_nil (tr : List Event) (h : ∀ e ∈ tr, e.isHistory = false) :
    historyEntries tr = [] := by
  unfold historyEntries
  rw [List.filterMap_eq_nil_iff]
  intro e he
  have := h e he
  cases e <;> simp_all [Event.isHistory]

theorem historyEntries_append (a b : List Event) :
    historyEntries (a ++ b) = historyEntries a ++ historyEntries b := by
  simp [historyEntries]

theorem confirmRequests_append (a b : List Event) :
    confirmRequests (a ++ b) = confirmRequests a ++ confirmRequests b := by
  simp [confirmRequests]

theorem CloudSyncHistory_record (env : Env) (taskID startTime : Int) (h : CloudHistory)
    (tr : List Event) :
    (CloudSyncHistory env taskID startTime h tr).2.1 = stampHistory env startTime h := by
  unfold CloudSyncHistory
  simp only
  split <;> rfl

theorem stampHistory_status (env : Env) (startTime : Int) (h : CloudHistory) :
    (stampHistory env startTime h).Status = h.Status ∧
    (stampHistory env startTime h).NewAdd = h.NewAdd ∧
    (stampHistory env startTime h).AttrChanged = h.AttrChanged := ⟨rfl, rfl, rfl⟩

theorem CloudSyncHistory_trace (env : Env) (taskID startTime : Int) (h : CloudHistory)
    (tr : List Event) :
    (CloudSyncHistory env taskID startTime h tr).2.2 =
      tr ++ Event.UpdateCloudTask (updateData env taskID (stampHistory env startTime h)) ::
        (if env.UpdateCloudTask tr (updateData env taskID (stampHistory env startTime h)) = none
          then [Event.AddSyncHistory (stampHistory env startTime h)] else []) := by
  unfold CloudSyncHistory
  simp only
  split
  · rename_i e he
    simp [he]
  · rename_i he
    simp [he]


theorem ExecSync_cloudHistory (env : Env) (taskInfo : CloudTaskInfo) :
    (ExecSync env taskInfo).cloudHistory =
      stampHistory env env.startTime
        (markFail (execBody env taskInfo (newHistory taskInfo)).errOrigin
          (execBody env taskInfo (newHistory taskInfo)).cloudHistory) := by
  unfold ExecSync
  simp only
  rw [CloudSyncHistory_record]

theorem ExecSync_trace (env : Env) (taskInfo : CloudTaskInfo) :
    (ExecSync env taskInfo).trace =
      (execBody env taskInfo (newHistory taskInfo)).trace ++
        Event.UpdateCloudTask (updateData env taskInfo.TaskID (ExecSync env taskInfo).cloudHistory) ::
        (if env.UpdateCloudTask (execBody env taskInfo (newHistory taskInfo)).trace
              (updateData env taskInfo.TaskID (ExecSync env taskInfo).cloudHistory) = none
          then [Event.AddSyncHistory (ExecSync env taskInfo).cloudHistory] else []) := by
  rw [ExecSync_cloudHistory]
  unfold ExecSync
  simp only
  rw [CloudSyncHistory_trace]

theorem ExecSync_trace_tail (env : Env) (taskInfo : CloudTaskInfo) :
    ∃ d tl, (ExecSync env taskInfo).trace =
        (execBody env taskInfo (newHistory taskInfo)).trace ++ Event.UpdateCloudTask d :: tl ∧
      ∀ e ∈ tl, ∃ h, e = Event.AddSyncHistory h :=
  ⟨_, _, ExecSync_trace env taskInfo, by
    intro e he
    split at he
    · exact ⟨_, by simpa using he⟩
    · simp at he⟩

/-! ## The policy branch without confirmation -/

theorem execBody_direct_trace (env : Env) (taskInfo : CloudTaskInfo) (p : Picked)
    (h0 : CloudHistory)
    (hrc : taskInfo.ResourceConfirm = false) (hac : taskInfo.AttrConfirm = false)
    (hp : readAndClassify env taskInfo = Loop.done p) :
    (execBody env taskInfo h0).trace = (directApply env p).2.2 := by
  unfold execBody
  rw [hp]
  simp only [applyPolicy, hrc, hac, Bool.not_false, Bool.and_self, if_true]
  rcases hd : directApply env p with ⟨_ | e, heap, tr⟩
  · simp [confirmPolicy, finishPolicy, hrc, hac]
  · simp [failWith]

theorem directApply_calls (env : Env) (p : Picked) :
    (p.newCloudHost ≠ [] →
      ∃ rest, (directApply env p).2.2 =
        Event.AddCloudHosts (deref p.heap p.newCloudHost) :: rest) ∧
    (p.cloudHostAttr ≠ [] →
      (p.newCloudHost = [] ∨ (AddCloudHosts env (deref p.heap p.newCloudHost) []).1 = none) →
      Event.UpdateCloudHosts (deref p.heap p.cloudHostAttr) ∈ (directApply env p).2.2) := by
  obtain ⟨evs1, h1, -⟩ := AddCloudHosts_trace env (deref p.heap p.newCloudHost) []
  constructor
  · intro hne
    have hlen : p.newCloudHost.length > 0 := List.length_pos.mpr hne
    unfold directApply
    simp only [hlen, if_true]
    rcases hadd : AddCloudHosts env (deref p.heap p.newCloudHost) [] with ⟨_ | e, tr⟩
    · rw [hadd] at h1
      simp only at h1 ⊢
      split
      · obtain ⟨evs2, h3, -⟩ := UpdateCloudHosts_trace env p.cloudHostAttr p.heap tr
        rw [h3, h1]
        simp only [List.nil_append, List.cons_append]
        exact ⟨_, rfl⟩
      · rw [h1]; exact ⟨_, rfl⟩
    · rw [hadd] at h1
      simp only at h1 ⊢
      rw [h1]; exact ⟨_, rfl⟩
  · intro hne hcreate
    have hlen : p.cloudHostAttr.length > 0 := List.length_pos.mpr hne
    unfold directApply
    rcases hcreate with hnil | hok
    · simp only [hnil, List.length_nil, gt_iff_lt, lt_self_iff_false, if_false, hlen, if_true]
      obtain ⟨evs2, h3, -⟩ := UpdateCloudHosts_trace env p.cloudHostAttr p.heap []
      rw [h3]; simp
    · by_cases hnew : p.newCloudHost.length > 0
      · simp only [hnew, if_true]
        rcases hadd : AddCloudHosts env (deref p.heap p.newCloudHost) [] with ⟨_ | e, tr⟩
        · simp only [hlen, if_true]
          obtain ⟨evs2, h3, -⟩ := UpdateCloudHosts_trace env p.cloudHostAttr p.heap tr
          rw [h3]; simp
        · rw [hadd] at hok; simp at hok
      · simp only [hnew, if_false, hlen, if_true]
        obtain ⟨evs2, h3, -⟩ := UpdateCloudHosts_trace env p.cloudHostAttr p.heap []
        rw [h3]; simp

theorem directApply_create_fails (env : Env) (p : Picked) (e : Err)
    (hne : p.newCloudHost ≠ [])
    (hfail : (AddCloudHosts env (deref p.heap p.newCloudHost) []).1 = some e) :
    (directApply env p).1 = some e ∧
      ∀ hosts, Event.UpdateCloudHosts hosts ∉ (directApply env p).2.2 := by
  have hlen : p.newCloudHost.length > 0 := List.length_pos.mpr hne
  obtain ⟨evs1, h1, h2⟩ := AddCloudHosts_trace_kind env (deref p.heap p.newCloudHost) []
  unfold directApply
  simp only [hlen, if_true]
  rcases hadd : AddCloudHosts env (deref p.heap p.newCloudHost) [] with ⟨_ | e1, tr⟩
  · rw [hadd] at hfail; simp at hfail
  · rw [hadd] at hfail h1
    simp only at hfail h1 ⊢
    refine ⟨hfail, ?_⟩
    intro hosts hmem
    rw [h1, List.nil_append] at hmem
    rcases List.mem_cons.mp hmem with h | h
    · cases h
    · obtain ⟨a, m, o, x, hx⟩ := h2 _ h
      cases hx

theorem execBody_direct_ret (env : Env) (taskInfo : CloudTaskInfo) (p : Picked)
    (h0 : CloudHistory) (e : Err)
    (hrc : taskInfo.ResourceConfirm = false) (hac : taskInfo.AttrConfirm = false)
    (hp : readAndClassify env taskInfo = Loop.done p)
    (hd : (directApply env p).1 = some e) :
    (execBody env taskInfo h0).ret = Ret.err e := by
  unfold execBody
  rw [hp]
  simp only [applyPolicy, hrc, hac, Bool.not_false, Bool.and_self, if_true]
  rcases hda : directApply env p with ⟨_ | e1, heap, tr⟩
  · rw [hda] at hd; simp at hd
  · rw [hda] at hd
    simp only [Option.some.injEq] at hd
    simp [failWith, hd]

/-- Claim C2, amended. For every run of `ExecSync` of a task with both confirm
flags false that reaches the policy branch with the classification `p`: no
confirmation request is submitted; when the new-host set is not empty the first
action is the call of `AddCloudHosts` on it; when the changed-host set is not
empty and the creation did not fail, `UpdateCloudHosts` is called on it; and when
the creation fails the run returns that error without any call of
`UpdateCloudHosts`. On the example of the specification the direct writes are one
creation of 10.0.0.2 and one update of 10.0.0.1 (host id 11, OS name B), the
history counts are new = 1 and changed = 1, the status is success, and nil is
returned. -/
theorem ExecSync_applies_directly_without_confirm :
    (∀ (env : Env) (taskInfo : CloudTaskInfo) (p : Picked),
      taskInfo.ResourceConfirm = false → taskInfo.AttrConfirm = false →
      readAndClassify env taskInfo = Loop.done p →
        confirmRequests (ExecSync env taskInfo).trace = [] ∧
        (p.newCloudHost ≠ [] →
          ∃ rest, (ExecSync env taskInfo).trace =
            Event.AddCloudHosts (deref p.heap p.newCloudHost) :: rest) ∧
        (p.cloudHostAttr ≠ [] →
          (p.newCloudHost = [] ∨
            (AddCloudHosts env (deref p.heap p.newCloudHost) []).1 = none) →
          Event.UpdateCloudHosts (deref p.heap p.cloudHostAttr) ∈
            (ExecSync env taskInfo).trace) ∧
        (p.newCloudHost ≠ [] →
          ∀ e, (AddCloudHosts env (deref p.heap p.newCloudHost) []).1 = some e →
            (ExecSync env taskInfo).ret = Ret.err e ∧
            ∀ hosts, Event.UpdateCloudHosts hosts ∉ (ExecSync env taskInfo).trace)) ∧
    (hostWrites (ExecSync (sampleEnv specHosts specCloud []) (sampleTask false false)).trace =
        [Event.AddCloudHosts [cloudHost "10.0.0.2" "A" "2.2.2.2"],
         Event.AddHost 1 2 "0" [(0, addHostEntry (cloudHost "10.0.0.2" "A" "2.2.2.2"))],
         Event.UpdateCloudHosts
           [assign (cloudHost "10.0.0.1" "B" "1.1.1.1") BKHostIDField (Val.str "11")],
         Event.UpdateObject 11 (cloudHost "10.0.0.1" "B" "1.1.1.1")] ∧
      confirmRequests (ExecSync (sampleEnv specHosts specCloud []) (sampleTask false false)).trace
        = [] ∧
      (ExecSync (sampleEnv specHosts specCloud []) (sampleTask false false)).cloudHistory.NewAdd
        = 1 ∧
      (ExecSync (sampleEnv specHosts specCloud [])
        (sampleTask false false)).cloudHistory.AttrChanged = 1 ∧
      (ExecSync (sampleEnv specHosts specCloud []) (sampleTask false false)).cloudHistory.Status
        = "success" ∧
      (ExecSync (sampleEnv specHosts specCloud []) (sampleTask false false)).ret = Ret.nil) := by
  constructor
  · intro env taskInfo p hrc hac hp
    obtain ⟨d, tl, htr, htl⟩ := ExecSync_trace_tail env taskInfo
    rw [execBody_direct_trace env taskInfo p _ hrc hac hp] at htr
    obtain ⟨hcreate, hupdate⟩ := directApply_calls env p
    refine ⟨?_, ?_, ?_, ?_⟩
    · apply confirmRequests_eq_nil
      intro e he
      rw [htr] at he
      rcases List.mem_append.mp he with he | he
      · have := directApply_trace env p e he
        cases e <;> simp_all [Event.isHostWrite, Event.isConfirm]
      · rcases List.mem_cons.mp he with rfl | he
        · rfl
        · obtain ⟨h, rfl⟩ := htl e he
          rfl
    · intro hne
      obtain ⟨rest, hrest⟩ := hcreate hne
      rw [htr, hrest]
      exact ⟨_, rfl⟩
    · intro hne hok
      rw [htr]
      exact List.mem_append.mpr (Or.inl (hupdate hne hok))
    · intro hne e hfail
      obtain ⟨hd, hno⟩ := directApply_create_fails env p e hne hfail
      refine ⟨?_, ?_⟩
      · show (execBody env taskInfo (newHistory taskInfo)).ret = Ret.err e
        exact execBody_direct_ret env taskInfo p _ e hrc hac hp hd
      · intro hosts hmem
        rw [htr] at hmem
        rcases List.mem_append.mp hmem with h | h
        · exact hno hosts h
        · rcases List.mem_cons.mp h with h | h
          · cases h
          · obtain ⟨x, hx⟩ := htl _ h
            cases hx
  · decide

/-- Claim C2 applied to the example of the specification, where the new-host set
is position 1 and the changed-host set is position 0. -/
theorem ExecSync_applies_directly_without_confirm_witness :
    confirmRequests (ExecSync (sampleEnv specHosts specCloud []) (sampleTask false false)).trace
      = [] ∧
    (∃ rest, (ExecSync (sampleEnv specHosts specCloud []) (sampleTask false false)).trace =
      Event.AddCloudHosts [cloudHost "10.0.0.2" "A" "2.2.2.2"] :: rest) ∧
    Event.UpdateCloudHosts
        [assign (cloudHost "10.0.0.1" "B" "1.1.1.1") BKHostIDField (Val.str "11")] ∈
      (ExecSync (sampleEnv specHosts specCloud []) (sampleTask false false)).trace :=
  have h := ExecSync_applies_directly_without_confirm.1
    (sampleEnv specHosts specCloud []) (sampleTask false false)
    { existHostList := ["10.0.0.1"], newAddHost := ["10.0.0.2"], newCloudHost := [1],
      cloudHostAttr := [0],
      heap := [assign (cloudHost "10.0.0.1" "B" "1.1.1.1") BKHostIDField (Val.str "11"),
               cloudHost "10.0.0.2" "A" "2.2.2.2"],
      errOrigin := none } rfl rfl rfl
  ⟨h.1, h.2.1 (by decide), h.2.2.1 (by decide) (Or.inr rfl)⟩

/-- Claim C2 as stated fails: with both confirm flags false, on the example of the
specification with a failing lookup of the default application, the run reaches
the policy branch with the changed-host set at position 0, `AddCloudHosts` fails,
and the changed-host set is never passed to `UpdateCloudHosts`: the creation call
is the only direct write and the run returns the error. -/
theorem ExecSync_no_update_after_failed_create :
    (sampleTask false false).ResourceConfirm = false ∧
    (sampleTask false false).AttrConfirm = false ∧
    (∃ p, readAndClassify createFailsEnv (sampleTask false false) = Loop.done p ∧
      p.cloudHostAttr = [0]) ∧
    hostWrites (ExecSync createFailsEnv (sampleTask false false)).trace =
      [Event.AddCloudHosts [cloudHost "10.0.0.2" "A" "2.2.2.2"]] ∧
    (ExecSync createFailsEnv (sampleTask false false)).ret =
      Ret.err "no default application" :=
  ⟨rfl, rfl, ⟨_, rfl, rfl⟩, by decide, by decide⟩


/-! ## Errors and the status of the history outcome -/

theorem finishPolicy_ret_err (env : Env) (taskInfo : CloudTaskInfo) (p : Picked)
    (heap : List MapStr) (h : CloudHistory) (tr : List Event) (e : Err)
    (hret : (finishPolicy env taskInfo p heap h tr).ret = Ret.err e) :
    (finishPolicy env taskInfo p heap h tr).errOrigin = some e := by
  unfold finishPolicy at hret ⊢
  split at hret
  · rename_i hc
    simp only [hc, if_true]
    rcases hl : attrConfirmLoop env taskInfo (deref heap p.cloudHostAttr) tr with ⟨_ | e1, tr1⟩
    · rw [hl] at hret; simp at hret
    · rw [hl] at hret
      simp only [failWith, Ret.err.injEq] at hret
      simp [failWith, hret]
  · simp at hret

theorem confirmPolicy_ret_err (env : Env) (taskInfo : CloudTaskInfo) (p : Picked)
    (heap : List MapStr) (h : CloudHistory) (tr : List Event) (e : Err)
    (hret : (confirmPolicy env taskInfo p heap h tr).ret = Ret.err e) :
    (confirmPolicy env taskInfo p heap h tr).errOrigin = some e := by
  unfold confirmPolicy at hret ⊢
  split at hret
  · rename_i hc
    simp only [hc, if_true]
    rcases hl : NewAddConfirm env taskInfo (deref heap p.newCloudHost) tr with ⟨n, _ | e1, tr1⟩
    · rw [hl] at hret
      exact finishPolicy_ret_err env taskInfo p heap _ tr1 e hret
    · rw [hl] at hret
      simp only [failWith, Ret.err.injEq] at hret
      simp [failWith, hret]
  · rename_i hc
    simp only [hc]
    exact finishPolicy_ret_err env taskInfo p heap h tr e hret

theorem applyPolicy_ret_err (env : Env) (taskInfo : CloudTaskInfo) (p : Picked)
    (h : CloudHistory) (e : Err)
    (hret : (applyPolicy env taskInfo p h).ret = Ret.err e) :
    (applyPolicy env taskInfo p h).errOrigin = some e := by
  unfold applyPolicy at hret ⊢
  simp only at hret ⊢
  split at hret
  · rename_i hc
    simp only [hc, if_true]
    rcases hd : directApply env p with ⟨_ | e1, heap, tr⟩
    · rw [hd] at hret
      exact confirmPolicy_ret_err env taskInfo p heap _ tr e hret
    · rw [hd] at hret
      simp only [failWith, Ret.err.injEq] at hret
      simp [failWith, hret]
  · rename_i hc
    simp only [hc]
    exact confirmPolicy_ret_err env taskInfo p p.heap _ [] e hret

theorem execBody_ret_err (env : Env) (taskInfo : CloudTaskInfo) (h : CloudHistory) (e : Err)
    (hret : (execBody env taskInfo h).ret = Ret.err e) :
    (execBody env taskInfo h).errOrigin = some e := by
  unfold execBody at hret ⊢
  cases hr : readAndClassify env taskInfo with
  | panic eo => rw [hr] at hret; simp at hret
  | ret e1 =>
    rw [hr] at hret
    simp only [failWith, Ret.err.injEq] at hret
    simp [failWith, hret]
  | done p =>
    rw [hr] at hret
    exact applyPolicy_ret_err env taskInfo p h e hret

theorem execBody_trace_kinds (env : Env) (taskInfo : CloudTaskInfo) (h : CloudHistory) :
    ∀ e ∈ (execBody env taskInfo h).trace, e.isHostWrite = true ∨ e.isConfirm = true := by
  unfold execBody
  cases readAndClassify env taskInfo with
  | panic eo => simp
  | ret e1 => simp [failWith]
  | done p =>
    simp only [applyPolicy]
    split
    · rcases hd : directApply env p with ⟨_ | e1, heap, tr⟩
      · have hda := directApply_trace env p
        rw [hd] at hda
        obtain ⟨evs, h1, h2⟩ := confirmPolicy_trace env taskInfo p heap
          { h with NewAdd := p.newAddHost.length, AttrChanged := p.cloudHostAttr.length } tr
        intro x hx
        simp only at hx
        rw [h1] at hx
        rcases List.mem_append.mp hx with hx | hx
        · exact Or.inl (hda x hx)
        · exact Or.inr (h2 x hx)
      · have hda := directApply_trace env p
        rw [hd] at hda
        intro x hx
        exact Or.inl (hda x hx)
    · obtain ⟨evs, h1, h2⟩ := confirmPolicy_trace env taskInfo p p.heap
        { h with NewAdd := p.newAddHost.length, AttrChanged := p.cloudHostAttr.length } []
      intro x hx
      rw [h1] at hx
      exact Or.inr (h2 x (by simpa using hx))

theorem execBody_no_history (env : Env) (taskInfo : CloudTaskInfo) (h : CloudHistory) :
    historyEntries (execBody env taskInfo h).trace = [] := by
  apply historyEntries_eq_nil
  intro e he
  rcases execBody_trace_kinds env taskInfo h e he with hk | hk <;>
    cases e <;> simp_all [Event.isHostWrite, Event.isConfirm, Event.isHistory]


/-! ## Confirmation of new hosts -/

/-- Claim C3 against the code. The confirmation queue holds 10.0.0.1; the new
hosts are 10.0.0.1 and 10.0.0.2. `NewAddConfirm` computes the one inner IP that
is absent from the queue (it returns 1) and then submits a request for every
new host, the pending 10.0.0.1 included; the same through `ExecSync`. -/
theorem NewAddConfirm_resubmits_pending_host :
    index (pendingHosts.getD 0 []) BKHostInnerIPField = Val.str "10.0.0.1" ∧
    (NewAddConfirm (sampleEnv otherHosts specCloud pendingHosts) (sampleTask true false)
      specCloud []).1 = 1 ∧
    (NewAddConfirm (sampleEnv otherHosts specCloud pendingHosts) (sampleTask true false)
      specCloud []).2.1 = none ∧
    confirmRequests (NewAddConfirm (sampleEnv otherHosts specCloud pendingHosts)
      (sampleTask true false) specCloud []).2.2 =
      [newAddRequest (sampleTask true false) "10.0.0.1" "1.1.1.1" "B",
       newAddRequest (sampleTask true false) "10.0.0.2" "2.2.2.2" "A"] ∧
    confirmRequests (ExecSync (sampleEnv otherHosts specCloud pendingHosts)
      (sampleTask true false)).trace =
      [newAddRequest (sampleTask true false) "10.0.0.1" "1.1.1.1" "B",
       newAddRequest (sampleTask true false) "10.0.0.2" "2.2.2.2" "A"] := by
  decide

/-! ## Status of the history outcome -/

/-- Claim C4 against the code. With `AttrConfirm` true and one changed host, every
step succeeds: `ExecSync` returns nil with no error recorded, one change request
is submitted, and the status stored in the history outcome is the empty text,
not success (the return at line 400 skips line 403). -/
theorem ExecSync_attr_confirm_leaves_status_empty :
    (ExecSync (sampleEnv specHosts specCloud []) (sampleTask false true)).ret = Ret.nil ∧
    (execBody (sampleEnv specHosts specCloud []) (sampleTask false true)
      (newHistory (sampleTask false true))).errOrigin = none ∧
    confirmRequests (ExecSync (sampleEnv specHosts specCloud []) (sampleTask false true)).trace =
      [changeRequest (sampleTask false true) "10.0.0.1" "1.1.1.1" "B"] ∧
    (ExecSync (sampleEnv specHosts specCloud []) (sampleTask false true)).cloudHistory.Status
      = "" ∧
    historyEntries (ExecSync (sampleEnv specHosts specCloud []) (sampleTask false true)).trace =
      [(ExecSync (sampleEnv specHosts specCloud []) (sampleTask false true)).cloudHistory] := by
  decide

/-- Every run of `ExecSync` in which an error was recorded, and so every run that
returns an error, stores the status fail. -/
theorem ExecSync_status_fail (env : Env) (taskInfo : CloudTaskInfo) :
    ((execBody env taskInfo (newHistory taskInfo)).errOrigin.isSome = true →
      (ExecSync env taskInfo).cloudHistory.Status = "fail") ∧
    (∀ e, (ExecSync env taskInfo).ret = Ret.err e →
      (ExecSync env taskInfo).cloudHistory.Status = "fail") := by
  have h1 : (execBody env taskInfo (newHistory taskInfo)).errOrigin.isSome = true →
      (ExecSync env taskInfo).cloudHistory.Status = "fail" := by
    intro h
    rw [ExecSync_cloudHistory, (stampHistory_status _ _ _).1]
    simp [markFail, h]
  refine ⟨h1, ?_⟩
  intro e hret
  apply h1
  have hb : (execBody env taskInfo (newHistory taskInfo)).ret = Ret.err e := hret
  rw [execBody_ret_err env taskInfo _ e hb]
  rfl

/-! ## The history entry of a failed run -/

/-- Claim C5, amended. For every run of `ExecSync` that returns an error, the
history outcome has status fail, and the history entries appended to the
inventory service are exactly that one outcome when the update of the task sent
by `CloudSyncHistory` succeeds, and none when that update fails. -/
theorem ExecSync_failed_run_history (env : Env) (taskInfo : CloudTaskInfo) (e : Err)
    (hret : (ExecSync env taskInfo).ret = Ret.err e) :
    (ExecSync env taskInfo).cloudHistory.Status = "fail" ∧
    (summaryAnswer env taskInfo = none →
      historyEntries (ExecSync env taskInfo).trace = [(ExecSync env taskInfo).cloudHistory]) ∧
    (summaryAnswer env taskInfo ≠ none →
      historyEntries (ExecSync env taskInfo).trace = []) := by
  refine ⟨(ExecSync_status_fail env taskInfo).2 e hret, ?_, ?_⟩
  · intro hs
    rw [ExecSync_trace, historyEntries_append, execBody_no_history]
    rw [ExecSync_cloudHistory]
    unfold summaryAnswer at hs
    simp [hs, historyEntries]
  · intro hs
    rw [ExecSync_trace, historyEntries_append, execBody_no_history]
    rw [ExecSync_cloudHistory]
    unfold summaryAnswer at hs
    simp [hs, historyEntries]

/-- Claim C5, amended, at a run whose host search fails while the recorder works:
one history entry, with status fail. -/
theorem ExecSync_failed_run_history_witness :
    (ExecSync searchFailsEnv (sampleTask false false)).ret = Ret.err "inventory down" ∧
    (ExecSync searchFailsEnv (sampleTask false false)).cloudHistory.Status = "fail" ∧
    historyEntries (ExecSync searchFailsEnv (sampleTask false false)).trace =
      [(ExecSync searchFailsEnv (sampleTask false false)).cloudHistory] :=
  have h := ExecSync_failed_run_history searchFailsEnv (sampleTask false false)
    "inventory down" rfl
  ⟨rfl, h.1, h.2.1 rfl⟩

/-- Claim C5 as stated fails: when the host search fails and the update of the
task fails too, `ExecSync` returns the error and no history entry is appended. -/
theorem ExecSync_failed_run_without_history :
    (ExecSync recorderFailsEnv (sampleTask false false)).ret = Ret.err "inventory down" ∧
    historyEntries (ExecSync recorderFailsEnv (sampleTask false false)).trace = [] ∧
    (ExecSync recorderFailsEnv (sampleTask false false)).trace.length = 1 := by
  decide

/-! ## Conversion failures -/

/-- Claim C6 against the code. The existing host has an OS name that does not
convert to a string. The conversion fails in the loop of lines 279-320, the error
is stored in `errOrigin`, the loop is left by `break`, and the run goes on: the
new host 10.0.0.2 is created after the failure, nil is returned, and only the
status is fail. With a cloud descriptor whose outer IP is not a string no error
is recorded at all and the status is success. -/
theorem ExecSync_goes_on_after_conversion_failure :
    existField sampleLib (badOsHosts.getD 0 []) BKOSNameField = none ∧
    (execBody (sampleEnv badOsHosts specCloud []) (sampleTask false false)
      (newHistory (sampleTask false false))).errOrigin = some "not a string" ∧
    hostWrites (ExecSync (sampleEnv badOsHosts specCloud []) (sampleTask false false)).trace =
      [Event.AddCloudHosts [cloudHost "10.0.0.2" "A" "2.2.2.2"],
       Event.AddHost 1 2 "0" [(0, addHostEntry (cloudHost "10.0.0.2" "A" "2.2.2.2"))]] ∧
    (ExecSync (sampleEnv badOsHosts specCloud []) (sampleTask false false)).ret = Ret.nil ∧
    (ExecSync (sampleEnv badOsHosts specCloud []) (sampleTask false false)).cloudHistory.Status
      = "fail" ∧
    cloudField (badOuterCloud.getD 0 []) BKHostOuterIPField = none ∧
    (execBody (sampleEnv specHosts badOuterCloud []) (sampleTask false false)
      (newHistory (sampleTask false false))).errOrigin = none ∧
    (ExecSync (sampleEnv specHosts badOuterCloud []) (sampleTask false false)).cloudHistory.Status
      = "success" := by
  decide


/-! ## The trigger calculator -/

/-- Claim C10. For the period type minute `NextTrigger` returns 5 for every
period value and every reading of the clock. -/
theorem NextTrigger_minute_is_five (clk : Clock) (period : String) :
    NextTrigger clk "minute" period = some 5 := by
  have h1 : ("minute" = "day") = False := by decide
  have h2 : ("minute" = "hour") = False := by decide
  simp only [NextTrigger, h1, h2, if_false, if_true]
  rfl

/-- Claim C7 against the code. On 2024-01-03 at 11:00:00 (UTC) with the period
type day and the period 09:00, which has passed, the code formats the next day
as the single digit 4; the text does not parse, the zero time stands in, and
`NextTrigger` returns a negative number of minutes. -/
theorem NextTrigger_day_negative_early_in_month :
    Format { now := 1704279600, zone := 0 } = "2024-01-03 11:00:00".data ∧
    ParseInLocation 0 "2024-01-4 09:00:00".data = none ∧
    NextTrigger { now := 1704279600, zone := 0 } "day" "09:00" = some (-1063997940) := by
  decide

/-- Claim C8 against the code. On 2024-01-15 at 10:30:00 (UTC) with the period
type hour and the target minute 30, equal to the current minute, none of the
four tests of lines 588-599 holds, the bare text 30 is parsed, and `NextTrigger`
returns a negative number instead of the 60 minutes to 11:30. With the period
type day and the target 10:30 the code does reach the next day (1440). -/
theorem NextTrigger_hour_equal_minute_not_next_hour :
    Format { now := 1705314600, zone := 0 } = "2024-01-15 10:30:00".data ∧
    (Atoi "30".data).1 = Clock.Minute { now := 1705314600, zone := 0 } ∧
    NextTrigger { now := 1705314600, zone := 0 } "hour" "30" = some (-1064015190) ∧
    NextTrigger { now := 1705314600, zone := 0 } "day" "10:30" = some 1440 := by
  decide

/-- Claim C9 against the code. At 23:30:00 with the period type hour and the
target minute 5 the next occurrence is 00:05 of the next day, 35 minutes ahead;
the code builds the hour 24, which does not parse, and returns a negative
number. On 2024-01-31 at 12:00:00 with the period type day and the target 09:00
the next occurrence is 09:00 on 2024-02-01, 1260 minutes ahead; the code builds
the day 32, which does not parse, and returns a negative number. -/
theorem NextTrigger_no_carry_at_end_of_day_or_month :
    Format { now := 1705361400, zone := 0 } = "2024-01-15 23:30:00".data ∧
    ParseInLocation 0 "2024-01-15 24:05:00".data = none ∧
    ParseInLocation 0 "2024-01-16 00:05:00".data = some (1705361400 + 35 * 60) ∧
    NextTrigger { now := 1705361400, zone := 0 } "hour" "5" = some (-1064015970) ∧
    Format { now := 1706702400, zone := 0 } = "2024-01-31 12:00:00".data ∧
    ParseInLocation 0 "2024-01-32 09:00:00".data = none ∧
    ParseInLocation 0 "2024-02-01 09:00:00".data = some (1706702400 + 1260 * 60) ∧
    NextTrigger { now := 1706702400, zone := 0 } "day" "09:00" = some (-1064038320) := by
  decide


/-! ## The scheduler of one task -/

theorem rearm_Method (t : TaskInfo) : (rearm t).Method = t.Method := by
  unfold rearm
  split
  · rfl
  · split
    · rfl
    · split <;> rfl

theorem rearm_NextTrigger (t : TaskInfo) (w : Int) (h : stepOf t.Method = some w) :
    (rearm t).NextTrigger = w := by
  unfold stepOf at h
  unfold rearm
  split at h
  · rename_i hd
    simp only [hd, if_true]
    exact Option.some.inj h
  · rename_i hd
    simp only [hd, if_false]
    split at h
    · rename_i hh
      simp only [hh, if_true]
      exact Option.some.inj h
    · rename_i hh
      simp only [hh, if_false]
      split at h
      · rename_i hm
        simp only [hm, if_true]
        exact Option.some.inj h
      · cases h

theorem rearm_rearm (t : TaskInfo) : rearm (rearm t) = rearm t := by
  by_cases hd : t.Method = "day"
  · simp [rearm, hd]
  · by_cases hh : t.Method = "hour"
    · simp [rearm, hh]
    · by_cases hm : t.Method = "minute"
      · simp [rearm, hm]
      · simp [rearm, hd, hh, hm]

theorem CloudSyncSwitch_armed_fixed :
    ∀ (sigs : List Signal) (t : TaskInfo), rearm t = t →
      ∀ w ∈ (CloudSyncSwitch sigs t).armed, w = t.NextTrigger := by
  intro sigs
  induction sigs with
  | nil =>
    intro t _ w hw
    unfold CloudSyncSwitch at hw
    split at hw
    · simp at hw
    · simpa using hw
  | cons sig rest ih =>
    intro t ht w hw
    cases sig with
    | stop =>
      unfold CloudSyncSwitch at hw
      split at hw
      · simp at hw
      · simpa using hw
    | fire env =>
      unfold CloudSyncSwitch at hw
      split at hw
      · simp at hw
      · split at hw
        · simpa using hw
        · rcases List.mem_cons.mp hw with h | h
          · exact h
          · rw [ht] at h
            exact ih t ht w h

/-- Claim C11. In `CloudSyncSwitch`, under every sequence of firings and stop
signals and for every task record: the first ticker is armed with the interval
the record came with (the one computed by `NextTrigger`), and every ticker armed
after a firing has the interval fixed by the period type alone, 1440 minutes for
day, 60 for hour and 5 for minute, whatever the period value and the first
interval were. -/
theorem CloudSyncSwitch_rearms_from_period_type (sigs : List Signal) (t : TaskInfo) :
    (∀ w, (CloudSyncSwitch sigs t).armed[0]? = some w → w = t.NextTrigger) ∧
    (∀ i w, (CloudSyncSwitch sigs t).armed[i + 1]? = some w →
      (t.Method = "day" → w = 1440) ∧ (t.Method = "hour" → w = 60) ∧
      (t.Method = "minute" → w = 5)) := by
  have hlater : ∀ i w, (CloudSyncSwitch sigs t).armed[i + 1]? = some w →
      w = (rearm t).NextTrigger := by
    intro i w hw
    cases sigs with
    | nil =>
      unfold CloudSyncSwitch at hw
      split at hw <;> simp at hw
    | cons sig rest =>
      cases sig with
      | stop =>
        unfold CloudSyncSwitch at hw
        split at hw <;> simp at hw
      | fire env =>
        unfold CloudSyncSwitch at hw
        split at hw
        · simp at hw
        · split at hw
          · simp at hw
          · simp only [List.getElem?_cons_succ] at hw
            exact CloudSyncSwitch_armed_fixed rest (rearm t) (rearm_rearm t) w
              (List.getElem?_mem hw)
  constructor
  · intro w hw
    cases sigs with
    | nil =>
      unfold CloudSyncSwitch at hw
      split at hw
      · simp at hw
      · simpa using hw.symm
    | cons sig rest =>
      cases sig with
      | stop =>
        unfold CloudSyncSwitch at hw
        split at hw
        · simp at hw
        · simpa using hw.symm
      | fire env =>
        unfold CloudSyncSwitch at hw
        split at hw
        · simp at hw
        · split at hw
          · simpa using hw.symm
          · simpa using hw.symm
  · intro i w hw
    have h := hlater i w hw
    refine ⟨?_, ?_, ?_⟩
    · intro hm
      rw [h]
      exact rearm_NextTrigger t 1440 (by simp [stepOf, hm])
    · intro hm
      rw [h]
      exact rearm_NextTrigger t 60 (by simp [stepOf, hm])
    · intro hm
      rw [h]
      exact rearm_NextTrigger t 5 (by simp [stepOf, hm])

/-- Claim C11 at an hourly task with target minute 45 adopted at 10:30:00: the
first wait is the 15 minutes computed by `NextTrigger`, the waits after the two
firings are 60 minutes. -/
theorem CloudSyncSwitch_rearms_from_period_type_witness :
    NextTrigger { now := 1705314600, zone := 0 } "hour" "45" = some 15 ∧
    (CloudSyncSwitch
      [Signal.fire (sampleEnv specHosts specCloud []),
       Signal.fire (sampleEnv specHosts specCloud []), Signal.stop]
      (newTaskInfoItem 15 { sampleTask false false with PeriodType := "hour", Period := "45" })
      ).armed = [15, 60, 60] ∧
    (∀ w, ([15, 60, 60] : List Int)[1]? = some w → w = 60) := by
  have h := (CloudSyncSwitch_rearms_from_period_type
    [Signal.fire (sampleEnv specHosts specCloud []),
     Signal.fire (sampleEnv specHosts specCloud []), Signal.stop]
    (newTaskInfoItem 15 { sampleTask false false with PeriodType := "hour", Period := "45" })).2
  have harm : (CloudSyncSwitch
      [Signal.fire (sampleEnv specHosts specCloud []),
       Signal.fire (sampleEnv specHosts specCloud []), Signal.stop]
      (newTaskInfoItem 15 { sampleTask false false with PeriodType := "hour", Period := "45" })
      ).armed = [15, 60, 60] := by decide
  refine ⟨by decide, harm, ?_⟩
  intro w hw
  exact (h 0 w (by rw [harm]; exact hw)).2.1 rfl


/-! ## The time consumed in the history record -/

/-- Claim C12 against the code. For an elapsed time of exactly 60 seconds
`CloudSyncHistory` writes the seconds form, 60s, where the claim has the
minutes form, 1min0s: line 678 tests `timeConsumed > 60`. For every other
elapsed time `t >= 0` the text is as claimed: the minutes form with `t / 60` and
`t % 60` above 60 seconds, the seconds form below 60 seconds. -/
theorem CloudSyncHistory_sixty_seconds_in_seconds_form :
    sixtySecondsEnv.finishTime - sixtySecondsEnv.startTime = 60 ∧
    (stampHistory sixtySecondsEnv sixtySecondsEnv.startTime
      (newHistory (sampleTask false false))).TimeConsume = "60s" ∧
    (ExecSync sixtySecondsEnv (sampleTask false false)).cloudHistory.TimeConsume = "60s" ∧
    historyEntries (ExecSync sixtySecondsEnv (sampleTask false false)).trace =
      [{ ObjID := "host", TaskID := 7, Status := "success", NewAdd := 1, AttrChanged := 1,
         TimeConsume := "60s", StartTime := "2024-01-15 10:30:00" }] ∧
    (∀ (env : Env) (startTime : Int) (h : CloudHistory),
      60 < env.finishTime - startTime →
        (stampHistory env startTime h).TimeConsume =
          String.mk (fmtD ((env.finishTime - startTime) / 60) ++ "min".data
            ++ fmtD ((env.finishTime - startTime) % 60) ++ "s".data)) ∧
    (∀ (env : Env) (startTime : Int) (h : CloudHistory),
      env.finishTime - startTime < 60 →
        (stampHistory env startTime h).TimeConsume =
          String.mk (fmtD (env.finishTime - startTime) ++ "s".data)) := by
  refine ⟨by decide, by decide, by decide, by decide, ?_, ?_⟩
  · intro env startTime h ht
    have h0 : 0 ≤ env.finishTime - startTime := by omega
    simp only [stampHistory, gt_iff_lt, ht, if_true]
    rw [Int.tdiv_eq_ediv h0 (by norm_num), Int.tmod_eq_emod h0 (by norm_num)]
  · intro env startTime h ht
    have hn : ¬ (60 < env.finishTime - startTime) := by omega
    simp only [stampHistory, gt_iff_lt, hn, if_false]

/-! ## The eviction pass -/

/-- Claim C13. In the eviction pass, a decoded stop item whose owner differs from
the local owner, or whose task identifier is not in `taskInfoMap`, leaves the
registry unchanged, sends no stop signal, and ends either with the loop going on
(other owner) or with the plain return of line 138 (task absent), never with a
panic; in `SyncTaskRedisManager` such an item either ends the pass with the state
unchanged or is followed by the rest of the pass after one `SDiffStore`. -/
theorem SyncTaskRedisManager_absent_item_is_noop
    (decode : String → Option CloudSyncRedisStop) (ownerID : String)
    (item : CloudSyncRedisStop) (p : Pop) (ps : List Pop) (s : Evict)
    (hdec : decode p.stop = some item)
    (h : item.OwnerID ≠ ownerID ∨ s.taskInfoMap.lookup item.TaskID = none) :
    (evictItem ownerID item p.sched s).1.taskInfoMap = s.taskInfoMap ∧
    (evictItem ownerID item p.sched s).1.stopSignals = s.stopSignals ∧
    ((evictItem ownerID item p.sched s).2 = Control.next ∨
      (evictItem ownerID item p.sched s).2 = Control.returned) ∧
    (SyncTaskRedisManager decode ownerID (p :: ps) s = (s, Control.returned) ∨
      SyncTaskRedisManager decode ownerID (p :: ps) s =
        SyncTaskRedisManager decode ownerID ps { s with sdiffStores := s.sdiffStores + 1 }) := by
  by_cases ho : ownerID = item.OwnerID
  · have hl : s.taskInfoMap.lookup item.TaskID = none := by
      rcases h with h | h
      · exact absurd ho.symm h
      · exact h
    have he : evictItem ownerID item p.sched s = (s, Control.returned) := by
      simp [evictItem, ho, hl]
    refine ⟨by rw [he], by rw [he], Or.inr (by rw [he]), Or.inl ?_⟩
    simp only [SyncTaskRedisManager, hdec, he]
  · have he : evictItem ownerID item p.sched s =
        ({ s with sdiffStores := s.sdiffStores + 1 }, Control.next) := by
      simp [evictItem, ho]
    refine ⟨by rw [he], by rw [he], Or.inl (by rw [he]), Or.inr ?_⟩
    simp only [SyncTaskRedisManager, hdec, he]

/-- Claim C13 at a registry that holds task 8 only: a stop item for task 7 of the
local owner 0 (task absent) and a stop item of the owner 1 (other owner). -/
theorem SyncTaskRedisManager_absent_item_is_noop_witness :
    ((evictItem "0" { TaskID := 7, OwnerID := "0" } (some [Signal.stop])
        { taskInfoMap := sampleRegistry, stopSignals := [], sdiffStores := 0 }).1.stopSignals
        = [] ∧
      (evictItem "0" { TaskID := 7, OwnerID := "0" } (some [Signal.stop])
        { taskInfoMap := sampleRegistry, stopSignals := [], sdiffStores := 0 }).2
        = Control.returned) ∧
    ((evictItem "0" { TaskID := 7, OwnerID := "1" } (some [Signal.stop])
        { taskInfoMap := sampleRegistry, stopSignals := [], sdiffStores := 0 }).1.stopSignals
        = [] ∧
      (evictItem "0" { TaskID := 7, OwnerID := "1" } (some [Signal.stop])
        { taskInfoMap := sampleRegistry, stopSignals := [], sdiffStores := 0 }).2
        = Control.next) :=
  have h1 := SyncTaskRedisManager_absent_item_is_noop sampleDecode "0"
    { TaskID := 7, OwnerID := "0" } { stop := "0", sched := some [Signal.stop] } []
    { taskInfoMap := sampleRegistry, stopSignals := [], sdiffStores := 0 } rfl (Or.inr rfl)
  have h2 := SyncTaskRedisManager_absent_item_is_noop sampleDecode "0"
    { TaskID := 7, OwnerID := "1" } { stop := "1", sched := some [Signal.stop] } []
    { taskInfoMap := sampleRegistry, stopSignals := [], sdiffStores := 0 } rfl
    (Or.inl (by decide))
  ⟨⟨h1.2.1, by decide⟩, ⟨h2.2.1, by decide⟩⟩


theorem lookup_map_replace (k : String) (v : Val) :
    ∀ (m : MapStr), (m.lookup k).isSome = true →
      (m.map (fun p => if p.1 = k then (k, v) else p)).lookup k = some v := by
  intro m
  induction m with
  | nil => intro h; simp [List.lookup] at h
  | cons p m ih =>
    intro h
    obtain ⟨a, b⟩ := p
    by_cases hk : a = k
    · have hf : (if (a, b).1 = k then (k, v) else (a, b)) = (k, v) := by
        simp [hk]
      rw [List.map_cons, hf]
      simp [List.lookup]
    · have hk2 : (k == a) = false := by simpa using fun h => hk h.symm
      have hf : (if (a, b).1 = k then (k, v) else (a, b)) = (a, b) := by
        simp [hk]
      rw [List.map_cons, hf]
      simp only [List.lookup, hk2] at h ⊢
      exact ih h

theorem lookup_append_new (k : String) (v : Val) :
    ∀ (m : MapStr), m.lookup k = none → (m ++ [(k, v)]).lookup k = some v := by
  intro m
  induction m with
  | nil => intro _; simp [List.lookup]
  | cons p m ih =>
    intro h
    obtain ⟨a, b⟩ := p
    by_cases hk : a = k
    · subst hk
      simp [List.lookup] at h
    · have hk2 : (k == a) = false := by simpa using fun h => hk h.symm
      simp only [List.lookup, hk2] at h
      simp only [List.cons_append, List.lookup, hk2]
      exact ih h

theorem index_assign_self (m : MapStr) (k : String) (v : Val) : index (assign m k v) k = v := by
  unfold index assign
  by_cases h : (m.lookup k).isSome = true
  · rw [if_pos h, lookup_map_replace k v m h]
  · rw [if_neg h]
    have hn : m.lookup k = none := by
      cases hm : m.lookup k with
      | none => rfl
      | some x => rw [hm] at h; simp at h
    rw [lookup_append_new k v m hn]

theorem mapOf_append_last (ps : List (String × Val)) (k : String) (v : Val) :
    index (mapOf (ps ++ [(k, v)])) k = v := by
  unfold mapOf
  rw [List.foldl_append]
  exact index_assign_self _ k v

theorem newAddRequest_type (t : CloudTaskInfo) (a b c : String) :
    hasResourceType (newAddRequest t a b c) "new_add" := by
  have h : newAddRequest t a b c =
      mapOf ([("bk_obj_id", Val.str t.ObjID),
         (BKHostInnerIPField, Val.str a),
         ("bk_source_type", Val.str "云同步"),
         ("bk_task_id", Val.int t.TaskID),
         (BKOSNameField, Val.str c),
         (BKHostOuterIPField, Val.str b),
         ("bk_confirm", Val.bool true),
         ("bk_attr_confirm", Val.bool false),
         ("bk_task_name", Val.str t.TaskName),
         ("bk_account_type", Val.str t.AccountType),
         ("bk_account_admin", Val.str t.AccountAdmin)] ++
         [("bk_resource_type", Val.str "new_add")]) := by
    simp only [newAddRequest, List.cons_append, List.nil_append]
  unfold hasResourceType
  rw [h]
  exact mapOf_append_last _ _ _

theorem changeRequest_type (t : CloudTaskInfo) (a b c : String) :
    hasResourceType (changeRequest t a b c) "change" := by
  have h : changeRequest t a b c =
      mapOf ([("bk_obj_id", Val.str t.ObjID),
         (BKHostInnerIPField, Val.str a),
         (BKHostOuterIPField, Val.str b),
         (BKOSNameField, Val.str c),
         ("bk_source_type", Val.str "cloud_sync"),
         ("bk_task_id", Val.int t.TaskID),
         ("bk_attr_confirm", Val.bool t.AttrConfirm),
         ("bk_confirm", Val.bool false),
         ("bk_task_name", Val.str t.TaskName),
         ("bk_account_type", Val.str t.AccountType),
         ("bk_account_admin", Val.str t.AccountAdmin)] ++
         [("bk_resource_type", Val.str "change")]) := by
    simp only [changeRequest, List.cons_append, List.nil_append]
  unfold hasResourceType
  rw [h]
  exact mapOf_append_last _ _ _


/-! ## The requests submitted by the confirmation loops -/

theorem submitLoop_requests (env : Env) (taskInfo : CloudTaskInfo) :
    ∀ (hosts : List MapStr) (tr : List Event),
      ∃ evs, (submitLoop env taskInfo hosts tr).2 = tr ++ evs ∧
        ∀ e ∈ evs, ∃ host ∈ hosts, ∃ ip outer os,
          env.lib.MapStr_String host BKHostInnerIPField = Except.ok ip ∧
          e = Event.ResourceConfirm (newAddRequest taskInfo ip outer os) := by
  intro hosts
  induction hosts with
  | nil => intro tr; exact ⟨[], by simp [submitLoop], by simp⟩
  | cons h rest ih =>
    intro tr
    unfold submitLoop
    cases h1 : env.lib.MapStr_String h BKHostInnerIPField with
    | error e => exact ⟨[], by simp, by simp⟩
    | ok innerIp =>
    cases env.lib.MapStr_String h BKHostOuterIPField with
    | error e => exact ⟨[], by simp, by simp⟩
    | ok outerIp =>
    cases env.lib.MapStr_String h BKOSNameField with
    | error e => exact ⟨[], by simp, by simp⟩
    | ok osName =>
      simp only
      cases env.ResourceConfirm tr (newAddRequest taskInfo innerIp outerIp osName) with
      | some e =>
        refine ⟨[Event.ResourceConfirm (newAddRequest taskInfo innerIp outerIp osName)],
          rfl, ?_⟩
        intro x hx
        simp only [List.mem_singleton] at hx
        exact ⟨h, by simp, innerIp, outerIp, osName, h1, hx⟩
      | none =>
        obtain ⟨evs, h2, h3⟩ := ih
          (tr ++ [Event.ResourceConfirm (newAddRequest taskInfo innerIp outerIp osName)])
        refine ⟨Event.ResourceConfirm (newAddRequest taskInfo innerIp outerIp osName) :: evs,
          ?_, ?_⟩
        · simp only; rw [h2]; simp
        · intro x hx
          rcases List.mem_cons.mp hx with hx | hx
          · exact ⟨h, by simp, innerIp, outerIp, osName, h1, hx⟩
          · obtain ⟨host, hh, a, b, c, hs, he⟩ := h3 x hx
            exact ⟨host, by simp [hh], a, b, c, hs, he⟩

theorem attrConfirmLoop_requests (env : Env) (taskInfo : CloudTaskInfo) :
    ∀ (hosts : List MapStr) (tr : List Event),
      ∃ evs, (attrConfirmLoop env taskInfo hosts tr).2 = tr ++ evs ∧
        ∀ e ∈ evs, ∃ host ∈ hosts, ∃ ip outer os,
          env.lib.MapStr_String host BKHostInnerIPField = Except.ok ip ∧
          e = Event.ResourceConfirm (changeRequest taskInfo ip outer os) := by
  intro hosts
  induction hosts with
  | nil => intro tr; exact ⟨[], by simp [attrConfirmLoop], by simp⟩
  | cons h rest ih =>
    intro tr
    unfold attrConfirmLoop
    cases h1 : env.lib.MapStr_String h BKHostInnerIPField with
    | error e => exact ⟨[], by simp, by simp⟩
    | ok innerIp =>
    cases env.lib.MapStr_String h BKHostOuterIPField with
    | error e => exact ⟨[], by simp, by simp⟩
    | ok outerIp =>
    cases env.lib.MapStr_String h BKOSNameField with
    | error e => exact ⟨[], by simp, by simp⟩
    | ok osName =>
      simp only
      cases env.ResourceConfirm tr (changeRequest taskInfo innerIp outerIp osName) with
      | some e =>
        refine ⟨[Event.ResourceConfirm (changeRequest taskInfo innerIp outerIp osName)],
          rfl, ?_⟩
        intro x hx
        simp only [List.mem_singleton] at hx
        exact ⟨h, by simp, innerIp, outerIp, osName, h1, hx⟩
      | none =>
        obtain ⟨evs, h2, h3⟩ := ih
          (tr ++ [Event.ResourceConfirm (changeRequest taskInfo innerIp outerIp osName)])
        refine ⟨Event.ResourceConfirm (changeRequest taskInfo innerIp outerIp osName) :: evs,
          ?_, ?_⟩
        · simp only; rw [h2]; simp
        · intro x hx
          rcases List.mem_cons.mp hx with hx | hx
          · exact ⟨h, by simp, innerIp, outerIp, osName, h1, hx⟩
          · obtain ⟨host, hh, a, b, c, hs, he⟩ := h3 x hx
            exact ⟨host, by simp [hh], a, b, c, hs, he⟩

theorem NewAddConfirm_requests (env : Env) (taskInfo : CloudTaskInfo) (hosts : List MapStr) :
    ∀ e ∈ (NewAddConfirm env taskInfo hosts []).2.2, ∃ host ∈ hosts, ∃ ip outer os,
      env.lib.MapStr_String host BKHostInnerIPField = Except.ok ip ∧
      e = Event.ResourceConfirm (newAddRequest taskInfo ip outer os) := by
  unfold NewAddConfirm
  cases env.SearchConfirm with
  | error e => simp
  | ok confirmHosts =>
    simp only
    cases newHostIpLoop env.lib
        (if confirmHosts.Count > 0 then confirmIpLoop confirmHosts.Info [] else []) hosts [] with
    | error e => simp
    | ok newHostIp =>
      simp only
      split
      · obtain ⟨evs, h1, h2⟩ := submitLoop_requests env taskInfo hosts []
        rcases hsub : submitLoop env taskInfo hosts [] with ⟨_ | e, tr1⟩
        · rw [hsub] at h1
          simp only [List.nil_append] at h1
          simp only
          rw [h1]
          exact h2
        · rw [hsub] at h1
          simp only [List.nil_append] at h1
          simp only
          rw [h1]
          exact h2
      · simp


/-! ## The two sets of the classification are disjoint -/

theorem existLoop_mem_of_done (lib : Lib) (host : SearchHost) :
    ∀ (is : List Nat) (acc l : List String), existLoop lib host is acc = Loop.done l →
      (∀ s ∈ acc, s ∈ l) ∧
      ∀ i ∈ is, ∀ row m ip, host.Info[i]? = some row →
        lib.NewFromInterface (rowHost row) = Except.ok m →
        lib.MapStr_String m BKHostInnerIPField = Except.ok ip → ip ∈ l := by
  intro is
  induction is with
  | nil =>
    intro acc l h
    simp only [existLoop, Loop.done.injEq] at h
    subst h
    exact ⟨fun s hs => hs, by simp⟩
  | cons i is ih =>
    intro acc l h
    unfold existLoop at h
    cases hrow : host.Info[i]? with
    | none => rw [hrow] at h; cases h
    | some row =>
      rw [hrow] at h
      simp only at h
      cases hm : lib.NewFromInterface (rowHost row) with
      | error e => rw [hm] at h; cases h
      | ok m =>
        rw [hm] at h
        simp only at h
        cases hs : lib.MapStr_String m BKHostInnerIPField with
        | error e => rw [hs] at h; cases h
        | ok ip =>
          rw [hs] at h
          simp only at h
          obtain ⟨h1, h2⟩ := ih (acc ++ [ip]) l h
          refine ⟨fun s hs => h1 s (by simp [hs]), ?_⟩
          intro k hk row1 m1 ip1 hr1 hm1 hs1
          rcases List.mem_cons.mp hk with rfl | hk
          · rw [hrow] at hr1
            cases hr1
            rw [hm] at hm1
            cases hm1
            rw [hs] at hs1
            cases hs1
            exact h1 ip (by simp)
          · exact h2 k hk row1 m1 ip1 hr1 hm1 hs1

theorem innerLoop_mem_of_done (lib : Lib) (host : SearchHost) (j : Nat) (ip outer os : String) :
    ∀ (is : List Nat) (c c1 : Chg), innerLoop lib host j ip outer os is c = Loop.done c1 →
      ∀ x ∈ c1.cloudHostAttr, x ∈ c.cloudHostAttr ∨
        (x = j ∧ ∃ i ∈ is, ∃ row m, host.Info[i]? = some row ∧
          lib.NewFromInterface (rowHost row) = Except.ok m ∧
          lib.MapStr_String m BKHostInnerIPField = Except.ok ip) := by
  intro is
  induction is with
  | nil =>
    intro c c1 h x hx
    simp only [innerLoop, Loop.done.injEq] at h
    subst h
    exact Or.inl hx
  | cons i is ih =>
    intro c c1 h x hx
    unfold innerLoop at h
    cases hrow : host.Info[i]? with
    | none => rw [hrow] at h; cases h
    | some row =>
      rw [hrow] at h
      simp only at h
      cases hm : lib.NewFromInterface (rowHost row) with
      | error e => rw [hm] at h; cases h
      | ok m =>
        rw [hm] at h
        simp only at h
        cases h1 : lib.MapStr_String m BKHostInnerIPField with
        | error e =>
          rw [h1] at h
          simp only [Loop.done.injEq] at h
          subst h
          exact Or.inl hx
        | ok eip =>
        rw [h1] at h
        simp only at h
        cases h2 : lib.MapStr_String m BKOSNameField with
        | error e =>
          rw [h2] at h
          simp only [Loop.done.injEq] at h
          subst h
          exact Or.inl hx
        | ok eos =>
        rw [h2] at h
        simp only at h
        cases h3 : lib.MapStr_String m BKHostOuterIPField with
        | error e =>
          rw [h3] at h
          simp only [Loop.done.injEq] at h
          subst h
          exact Or.inl hx
        | ok eouter =>
        rw [h3] at h
        simp only at h
        cases h4 : lib.MapStr_String m BKHostIDField with
        | error e =>
          rw [h4] at h
          simp only [Loop.done.injEq] at h
          subst h
          exact Or.inl hx
        | ok eid =>
          rw [h4] at h
          simp only at h
          split at h
          · rename_i hcond
            rcases ih _ c1 h x hx with hx1 | ⟨hxj, k, hk, row1, m1, hr1, hm1, hs1⟩
            · rcases List.mem_append.mp hx1 with hx2 | hx2
              · exact Or.inl hx2
              · refine Or.inr ⟨by simpa using hx2, i, by simp, row, m, hrow, hm, ?_⟩
                rw [h1, hcond.1]
            · exact Or.inr ⟨hxj, k, by simp [hk], row1, m1, hr1, hm1, hs1⟩
          · rcases ih _ c1 h x hx with hx1 | ⟨hxj, k, hk, row1, m1, hr1, hm1, hs1⟩
            · exact Or.inl hx1
            · exact Or.inr ⟨hxj, k, by simp [hk], row1, m1, hr1, hm1, hs1⟩

theorem attrLoop_mem_of_done (lib : Lib) (host : SearchHost) :
    ∀ (rest : List MapStr) (j : Nat) (a a1 : Attr), attrLoop lib host j rest a = Loop.done a1 →
      ∀ x ∈ a1.cloudHostAttr, x ∈ a.cloudHostAttr ∨
        ∃ k c, rest[k]? = some c ∧ x = j + k ∧
          ∃ i ∈ List.range host.Count.toNat, ∃ row m, host.Info[i]? = some row ∧
            lib.NewFromInterface (rowHost row) = Except.ok m ∧
            lib.MapStr_String m BKHostInnerIPField =
              Except.ok (assertString (index c BKHostInnerIPField)).1 := by
  intro rest
  induction rest with
  | nil =>
    intro j a a1 h x hx
    simp only [attrLoop, Loop.done.injEq] at h
    subst h
    exact Or.inl hx
  | cons c rest ih =>
    intro j a a1 h x hx
    unfold attrLoop at h
    simp only at h
    split at h
    · rcases ih (j + 1) _ a1 h x hx with hx1 | ⟨k, d, hk, hxk, hd⟩
      · exact Or.inl hx1
      · exact Or.inr ⟨k + 1, d, by simpa using hk, by omega, hd⟩
    · cases hin : innerLoop lib host j (assertString (index c BKHostInnerIPField)).1
          (assertString (index c BKHostOuterIPField)).1 (assertString (index c BKOSNameField)).1
          (List.range host.Count.toNat)
          { errOrigin := a.errOrigin, hostInfo := c, cloudHostAttr := a.cloudHostAttr } with
      | panic eo => rw [hin] at h; cases h
      | ret e => rw [hin] at h; cases h
      | done c1 =>
        rw [hin] at h
        simp only at h
        rcases ih (j + 1) _ a1 h x hx with hx1 | ⟨k, d, hk, hxk, hd⟩
        · rcases innerLoop_mem_of_done lib host j _ _ _ _ _ c1 hin x hx1 with hx2 | ⟨hxj, hx2⟩
          · exact Or.inl hx2
          · exact Or.inr ⟨0, c, by simp, by omega, hx2⟩
        · exact Or.inr ⟨k + 1, d, by simpa using hk, by omega, hd⟩

theorem newLoop_length (existHostList : List String) :
    ∀ (rest : List MapStr) (j : Nat) (acc : List String × List Nat),
      acc.1.length = acc.2.length →
      (newLoop existHostList j rest acc).1.length = (newLoop existHostList j rest acc).2.length := by
  intro rest
  induction rest with
  | nil => intro j acc h; simpa [newLoop] using h
  | cons c rest ih =>
    intro j acc h
    unfold newLoop
    simp only
    split
    · exact ih _ _ (by simp [h])
    · exact ih _ _ h

theorem readAndClassify_disjoint (env : Env) (taskInfo : CloudTaskInfo) (p : Picked)
    (hp : readAndClassify env taskInfo = Loop.done p) :
    p.newAddHost.length = p.newCloudHost.length ∧
    ∀ j ∈ p.newCloudHost, j ∉ p.cloudHostAttr := by
  unfold readAndClassify at hp
  cases hs : env.SearchHost with
  | error e => rw [hs] at hp; cases hp
  | ok host =>
    rw [hs] at hp
    simp only at hp
    cases hl : existLoop env.lib host (List.range host.Count.toNat) [] with
    | panic eo => rw [hl] at hp; cases hp
    | ret e => rw [hl] at hp; cases hp
    | done l =>
      rw [hl] at hp
      simp only at hp
      cases hc : env.ObtainCloudHosts taskInfo.SecretID taskInfo.SecretKey with
      | error e => rw [hc] at hp; cases hp
      | ok cloud =>
        rw [hc] at hp
        simp only [classify] at hp
        cases ha : attrLoop env.lib host 0 cloud
            { errOrigin := none, heap := [], cloudHostAttr := [] } with
        | panic eo => rw [ha] at hp; cases hp
        | ret e => rw [ha] at hp; cases hp
        | done a =>
          rw [ha] at hp
          simp only [Loop.done.injEq] at hp
          subst hp
          refine ⟨newLoop_length l cloud 0 ([], []) rfl, ?_⟩
          intro j hnew hattr
          simp only at hnew hattr
          rcases (newLoop_mem l cloud 0 ([], []) j).mp hnew with h | ⟨k, c, hk, hj, hnot⟩
          · simp at h
          · rcases attrLoop_mem_of_done env.lib host cloud 0 _ a ha j hattr with
              h | ⟨k1, c1, hk1, hj1, i, hi, row, m, hrow, hm, hstr⟩
            · simp at h
            · have hkk : k1 = k := by omega
              subst hkk
              rw [hk] at hk1
              cases hk1
              exact hnot ((existLoop_mem_of_done env.lib host _ [] l hl).2 i hi row m _ hrow hm hstr)


/-! ## One confirm flag alone -/

theorem mem_confirmRequests (tr : List Event) (r : MapStr) :
    r ∈ confirmRequests tr ↔ Event.ResourceConfirm r ∈ tr := by
  unfold confirmRequests
  rw [List.mem_filterMap]
  constructor
  · rintro ⟨e, he, hr⟩
    cases e <;> simp at hr
    subst hr
    exact he
  · intro h
    exact ⟨_, h, rfl⟩

theorem execBody_confirm_new (env : Env) (taskInfo : CloudTaskInfo) (p : Picked)
    (h0 : CloudHistory)
    (hrc : taskInfo.ResourceConfirm = true) (hac : taskInfo.AttrConfirm = false)
    (hp : readAndClassify env taskInfo = Loop.done p) :
    (execBody env taskInfo h0).trace =
      (NewAddConfirm env taskInfo (deref p.heap p.newCloudHost) []).2.2 ∧
    (execBody env taskInfo h0).cloudHistory.AttrChanged = p.cloudHostAttr.length := by
  unfold execBody
  rw [hp]
  simp only [applyPolicy, hrc, hac, Bool.not_true, Bool.false_and, Bool.false_eq_true, if_false,
    confirmPolicy, if_true]
  rcases hn : NewAddConfirm env taskInfo (deref p.heap p.newCloudHost) [] with ⟨n, _ | e, tr1⟩
  · simp [finishPolicy, hac]
  · simp [failWith]

theorem execBody_confirm_attr (env : Env) (taskInfo : CloudTaskInfo) (p : Picked)
    (h0 : CloudHistory)
    (hac : taskInfo.AttrConfirm = true) (hrc : taskInfo.ResourceConfirm = false)
    (hp : readAndClassify env taskInfo = Loop.done p) :
    (execBody env taskInfo h0).trace =
      (if p.cloudHostAttr.length > 0 then
        (attrConfirmLoop env taskInfo (deref p.heap p.cloudHostAttr) []).2 else []) ∧
    (execBody env taskInfo h0).cloudHistory.NewAdd = p.newAddHost.length := by
  unfold execBody
  rw [hp]
  simp only [applyPolicy, hrc, hac, Bool.not_true, Bool.and_false, Bool.false_eq_true, if_false,
    confirmPolicy, finishPolicy, true_and]
  by_cases hlen : p.cloudHostAttr.length > 0
  · simp only [hlen, if_true]
    rcases hl : attrConfirmLoop env taskInfo (deref p.heap p.cloudHostAttr) [] with ⟨_ | e, tr1⟩
    · simp
    · simp [failWith]
  · simp only [hlen, if_false]
    simp

theorem mem_deref (heap : List MapStr) (ptrs : List Nat) (host : MapStr)
    (h : host ∈ deref heap ptrs) : ∃ j ∈ ptrs, host = heap.getD j [] := by
  unfold deref at h
  obtain ⟨j, hj, rfl⟩ := List.mem_map.mp h
  exact ⟨j, hj, rfl⟩

theorem ExecSync_confirm_only_trace (env : Env) (taskInfo : CloudTaskInfo)
    (hbody : ∀ e ∈ (execBody env taskInfo (newHistory taskInfo)).trace, e.isConfirm = true) :
    hostWrites (ExecSync env taskInfo).trace = [] ∧
    ∀ r ∈ confirmRequests (ExecSync env taskInfo).trace,
      Event.ResourceConfirm r ∈ (execBody env taskInfo (newHistory taskInfo)).trace := by
  obtain ⟨d, tl, htr, htl⟩ := ExecSync_trace_tail env taskInfo
  constructor
  · unfold hostWrites
    rw [List.filter_eq_nil_iff]
    intro e he
    rw [htr] at he
    rcases List.mem_append.mp he with he | he
    · have := hbody e he
      cases e <;> simp_all [Event.isConfirm, Event.isHostWrite]
    · rcases List.mem_cons.mp he with rfl | he
      · simp [Event.isHostWrite]
      · obtain ⟨h, rfl⟩ := htl e he
        simp [Event.isHostWrite]
  · intro r hr
    rw [mem_confirmRequests, htr] at hr
    rcases List.mem_append.mp hr with hr | hr
    · exact hr
    · rcases List.mem_cons.mp hr with hr | hr
      · cases hr
      · obtain ⟨h, hh⟩ := htl _ hr
        cases hh


theorem ExecSync_counts (env : Env) (taskInfo : CloudTaskInfo) :
    (ExecSync env taskInfo).cloudHistory.NewAdd =
      (execBody env taskInfo (newHistory taskInfo)).cloudHistory.NewAdd ∧
    (ExecSync env taskInfo).cloudHistory.AttrChanged =
      (execBody env taskInfo (newHistory taskInfo)).cloudHistory.AttrChanged := by
  rw [ExecSync_cloudHistory]
  unfold markFail
  split <;> exact ⟨rfl, rfl⟩

/-- Claim C14. In `ExecSync` the two confirm flags are not handled independently.
For every run that reaches the policy branch with the classification `p`: with
`ResourceConfirm` true and `AttrConfirm` false no host is created or updated, every
confirmation request is a new_add request for a host of the new set that is not
in the changed set, and the recorded changed count is still the size of the
changed set; with `AttrConfirm` true and `ResourceConfirm` false no host is
created or updated, every confirmation request is a change request for a host of
the changed set that is not in the new set, and the recorded new count is still
the size of the new set. -/
theorem ExecSync_one_confirm_flag_drops_other_concern (env : Env) (taskInfo : CloudTaskInfo)
    (p : Picked) (hp : readAndClassify env taskInfo = Loop.done p) :
    (taskInfo.ResourceConfirm = true → taskInfo.AttrConfirm = false →
      hostWrites (ExecSync env taskInfo).trace = [] ∧
      (∀ r ∈ confirmRequests (ExecSync env taskInfo).trace,
        hasResourceType r "new_add" ∧
        ∃ j ∈ p.newCloudHost, j ∉ p.cloudHostAttr ∧ ∃ ip outer os,
          env.lib.MapStr_String (p.heap.getD j []) BKHostInnerIPField = Except.ok ip ∧
          r = newAddRequest taskInfo ip outer os) ∧
      (ExecSync env taskInfo).cloudHistory.AttrChanged = p.cloudHostAttr.length) ∧
    (taskInfo.AttrConfirm = true → taskInfo.ResourceConfirm = false →
      hostWrites (ExecSync env taskInfo).trace = [] ∧
      (∀ r ∈ confirmRequests (ExecSync env taskInfo).trace,
        hasResourceType r "change" ∧
        ∃ j ∈ p.cloudHostAttr, j ∉ p.newCloudHost ∧ ∃ ip outer os,
          env.lib.MapStr_String (p.heap.getD j []) BKHostInnerIPField = Except.ok ip ∧
          r = changeRequest taskInfo ip outer os) ∧
      (ExecSync env taskInfo).cloudHistory.NewAdd = p.newCloudHost.length) := by
  obtain ⟨hlen, hdisj⟩ := readAndClassify_disjoint env taskInfo p hp
  constructor
  · intro hrc hac
    obtain ⟨htr, hcount⟩ := execBody_confirm_new env taskInfo p (newHistory taskInfo) hrc hac hp
    have hreq := NewAddConfirm_requests env taskInfo (deref p.heap p.newCloudHost)
    rw [← htr] at hreq
    have hbody : ∀ e ∈ (execBody env taskInfo (newHistory taskInfo)).trace,
        e.isConfirm = true := by
      intro e he
      obtain ⟨host, -, ip, outer, os, -, rfl⟩ := hreq e he
      rfl
    obtain ⟨hw, hc⟩ := ExecSync_confirm_only_trace env taskInfo hbody
    refine ⟨hw, ?_, ?_⟩
    · intro r hr
      obtain ⟨host, hhost, ip, outer, os, hs, he⟩ := hreq _ (hc r hr)
      obtain ⟨j, hj, rfl⟩ := mem_deref _ _ _ hhost
      have hr2 : r = newAddRequest taskInfo ip outer os := by
        simpa using he
      refine ⟨?_, j, hj, hdisj j hj, ip, outer, os, hs, hr2⟩
      rw [hr2]
      exact newAddRequest_type taskInfo ip outer os
    · rw [(ExecSync_counts env taskInfo).2, hcount]
  · intro hac hrc
    obtain ⟨htr, hcount⟩ := execBody_confirm_attr env taskInfo p (newHistory taskInfo) hac hrc hp
    have hreq : ∀ e ∈ (execBody env taskInfo (newHistory taskInfo)).trace,
        ∃ host ∈ deref p.heap p.cloudHostAttr, ∃ ip outer os,
          env.lib.MapStr_String host BKHostInnerIPField = Except.ok ip ∧
          e = Event.ResourceConfirm (changeRequest taskInfo ip outer os) := by
      intro e he
      rw [htr] at he
      split at he
      · obtain ⟨evs, h1, h2⟩ := attrConfirmLoop_requests env taskInfo
          (deref p.heap p.cloudHostAttr) []
        rw [h1, List.nil_append] at he
        exact h2 e he
      · simp at he
    have hbody : ∀ e ∈ (execBody env taskInfo (newHistory taskInfo)).trace,
        e.isConfirm = true := by
      intro e he
      obtain ⟨host, -, ip, outer, os, -, rfl⟩ := hreq e he
      rfl
    obtain ⟨hw, hc⟩ := ExecSync_confirm_only_trace env taskInfo hbody
    refine ⟨hw, ?_, ?_⟩
    · intro r hr
      obtain ⟨host, hhost, ip, outer, os, hs, he⟩ := hreq _ (hc r hr)
      obtain ⟨j, hj, rfl⟩ := mem_deref _ _ _ hhost
      have hr2 : r = changeRequest taskInfo ip outer os := by
        simpa using he
      refine ⟨?_, j, hj, fun hn => hdisj j hn hj, ip, outer, os, hs, hr2⟩
      rw [hr2]
      exact changeRequest_type taskInfo ip outer os
    · rw [(ExecSync_counts env taskInfo).1, hcount, hlen]

/-- Claim C14 at the example of the specification (new set: position 1, host
10.0.0.2; changed set: position 0, host 10.0.0.1). With `ResourceConfirm` alone
the only request is the new_add request for 10.0.0.2, nothing is written for the
changed host, and the changed count is 1; with `AttrConfirm` alone the only
request is the change request for 10.0.0.1, nothing is written for the new host,
and the new count is 1. -/
theorem ExecSync_one_confirm_flag_drops_other_concern_witness :
    (hostWrites (ExecSync (sampleEnv specHosts specCloud []) (sampleTask true false)).trace = [] ∧
      confirmRequests (ExecSync (sampleEnv specHosts specCloud []) (sampleTask true false)).trace
        = [newAddRequest (sampleTask true false) "10.0.0.2" "2.2.2.2" "A"] ∧
      (ExecSync (sampleEnv specHosts specCloud [])
        (sampleTask true false)).cloudHistory.AttrChanged = 1) ∧
    (hostWrites (ExecSync (sampleEnv specHosts specCloud []) (sampleTask false true)).trace = [] ∧
      confirmRequests (ExecSync (sampleEnv specHosts specCloud []) (sampleTask false true)).trace
        = [changeRequest (sampleTask false true) "10.0.0.1" "1.1.1.1" "B"] ∧
      (ExecSync (sampleEnv specHosts specCloud [])
        (sampleTask false true)).cloudHistory.NewAdd = 1) :=
  have h1 := (ExecSync_one_confirm_flag_drops_other_concern
    (sampleEnv specHosts specCloud []) (sampleTask true false)
    { existHostList := ["10.0.0.1"], newAddHost := ["10.0.0.2"], newCloudHost := [1],
      cloudHostAttr := [0],
      heap := [assign (cloudHost "10.0.0.1" "B" "1.1.1.1") BKHostIDField (Val.str "11"),
               cloudHost "10.0.0.2" "A" "2.2.2.2"],
      errOrigin := none } rfl).1 rfl rfl
  have h2 := (ExecSync_one_confirm_flag_drops_other_concern
    (sampleEnv specHosts specCloud []) (sampleTask false true)
    { existHostList := ["10.0.0.1"], newAddHost := ["10.0.0.2"], newCloudHost := [1],
      cloudHostAttr := [0],
      heap := [assign (cloudHost "10.0.0.1" "B" "1.1.1.1") BKHostIDField (Val.str "11"),
               cloudHost "10.0.0.2" "A" "2.2.2.2"],
      errOrigin := none } rfl).2 rfl rfl
  ⟨⟨h1.1, by decide, h1.2.2⟩, ⟨h2.1, by decide, h2.2.2⟩⟩

end CloudSync
